import Mathlib

/-! # sdk-metrics: collector and transport

A shallow embedding of `packages/sdk-metrics/collector/collector.go` and
`packages/sdk-metrics/transport/http.go`.

* Go `string` values are byte sequences (`GoString`).
* `uint64` values are natural numbers; subtraction wraps modulo `2^64`.
* `float64` values are modelled by `Float64`: sign, integer significand and
  binary exponent, with infinities and NaN; every arithmetic operation is the
  exact operation followed by rounding to nearest, ties to even.
* The operating-system reads (`cpu.Get`, `memory.Get`, `network.Get`,
  `time.Now`) are inputs of each call, gathered in a `Tick`.
* The `*Collector` receiver is an explicit state that `Collect` returns updated.
-/

namespace SdkMetrics

set_option maxRecDepth 100000
set_option exponentiation.threshold 4096

/-! ## Basic Go types -/

/-- A Go `string`: an arbitrary sequence of bytes. -/
abbrev GoString := List Nat

/-- The bytes of an ASCII string literal of the source. -/
def ascii (s : String) : GoString := s.toList.map Char.toNat

/-- A Go `error` value, identified with its message. -/
abbrev GoError := GoString

/-- The modulus of `uint64` arithmetic. -/
def uint64Mod : Nat := 2 ^ 64

/-- Subtraction of two `uint64` values: `a - b` wraps around modulo `2^64`. -/
def sub64 (a b : Nat) : Nat := (a % uint64Mod + uint64Mod - b % uint64Mod) % uint64Mod

/-! ## float64 -/

/-- A `float64` value. `fin neg m e` denotes `(-1)^neg * m * 2^e`; the values
produced by rounding have `m < 2^53` and `-1074 ≤ e ≤ 971`, with
`2^52 ≤ m` unless `e = -1074`. -/
inductive Float64 where
  | fin (neg : Bool) (m : Nat) (e : Int)
  | inf (neg : Bool)
  | nan
  deriving DecidableEq, Repr

namespace Float64

/-- Floor of the binary logarithm, by halving; `fuel` bounds the number of steps. -/
def ilog2 : Nat → Nat → Nat
  | 0, _ => 0
  | fuel + 1, n => if 2 ≤ n then ilog2 fuel (n / 2) + 1 else 0

/-- Floor of the binary logarithm of `n` (`0` for `n = 0`). -/
def log2 (n : Nat) : Nat := ilog2 n n

/-- The exponent of the unit in the last place for the positive rational `n / d`:
the `e` with `2^52 ≤ (n / d) / 2^e < 2^53`, not below `-1074` (subnormal range). -/
def ulpExp (n d : Nat) : Int :=
  let e0 : Int := (log2 n : Int) - (log2 d : Int) - 52
  let q0 := (n * 2 ^ (-e0).toNat) / (d * 2 ^ e0.toNat)
  let e1 : Int := if q0 < 2 ^ 52 then e0 - 1 else e0
  max e1 (-1074)

/-- The integer nearest to `num / den`, ties to the even one. -/
def nearestEven (num den : Nat) : Nat :=
  let m := num / den
  let r := num % den
  if 2 * r < den then m
  else if den < 2 * r then m + 1
  else if m % 2 = 0 then m else m + 1

/-- Round the rational `(-1)^neg * n / d` (with `d ≠ 0`) to the nearest `float64`,
ties to even; magnitudes that round to `2^1024` or more become infinite. -/
def round (neg : Bool) (n d : Nat) : Float64 :=
  if n = 0 then fin neg 0 (-1074)
  else
    let e := ulpExp n d
    let m := nearestEven (n * 2 ^ (-e).toNat) (d * 2 ^ e.toNat)
    let m2 := if m = 2 ^ 53 then 2 ^ 52 else m
    let e2 := if m = 2 ^ 53 then e + 1 else e
    if 971 < e2 then inf neg else fin neg m2 e2

/-- Conversion `float64(x)` of an unsigned integer. -/
def ofNat (n : Nat) : Float64 := round false n 1

/-- Conversion `float64(x)` of a signed integer. -/
def ofInt (i : Int) : Float64 := round (decide (i < 0)) i.natAbs 1

/-- Whether the value is a zero (of either sign). -/
def isZero : Float64 → Bool
  | fin _ m _ => decide (m = 0)
  | _ => false

/-- Whether the value is finite (neither an infinity nor NaN). -/
def isFinite : Float64 → Bool
  | fin _ _ _ => true
  | _ => false

/-- Quotient `x / y` of two `float64` values. -/
def div : Float64 → Float64 → Float64
  | nan, _ => nan
  | _, nan => nan
  | inf _, inf _ => nan
  | inf s, fin t _ _ => inf (xor s t)
  | fin s _ _, inf t => fin (xor s t) 0 (-1074)
  | fin s m e, fin t k f =>
    if k = 0 then (if m = 0 then nan else inf (xor s t))
    else round (xor s t) (m * 2 ^ (e - f).toNat) (k * 2 ^ (f - e).toNat)

/-- Product `x * y` of two `float64` values. -/
def mul : Float64 → Float64 → Float64
  | nan, _ => nan
  | _, nan => nan
  | inf s, inf t => inf (xor s t)
  | inf s, fin t k _ => if k = 0 then nan else inf (xor s t)
  | fin s m _, inf t => if m = 0 then nan else inf (xor s t)
  | fin s m e, fin t k f =>
    round (xor s t) (m * k * 2 ^ (e + f).toNat) (2 ^ (-(e + f)).toNat)

/-- The integer `x / 2^k` for a finite `x = (-1)^neg * m * 2^e` with `k ≤ e`. -/
def scaled (neg : Bool) (m : Nat) (e k : Int) : Int :=
  (if neg then -1 else 1) * ((m * 2 ^ (e - k).toNat : Nat) : Int)

/-- Sum `x + y` of two `float64` values. -/
def add : Float64 → Float64 → Float64
  | nan, _ => nan
  | _, nan => nan
  | inf s, inf t => if s = t then inf s else nan
  | inf s, fin _ _ _ => inf s
  | fin _ _ _, inf t => inf t
  | fin s m e, fin t k f =>
    let g := min e f
    let z := scaled s m e g + scaled t k f g
    if z = 0 then fin (s && t) 0 (-1074)
    else round (decide (z < 0)) (z.natAbs * 2 ^ g.toNat) (2 ^ (-g).toNat)

/-- Comparison `x < y` of two `float64` values (false when either is NaN). -/
def lt : Float64 → Float64 → Bool
  | nan, _ => false
  | _, nan => false
  | inf s, inf t => s && !t
  | inf s, fin _ _ _ => s
  | fin _ _ _, inf t => !t
  | fin s m e, fin t k f =>
    let g := min e f
    decide (scaled s m e g < scaled t k f g)

/-- Conversion `uint64(x)`: the fractional part is discarded. When the
truncated value is not representable in `uint64` the Go specification leaves
the result implementation-dependent; `impl` supplies it. -/
def toUint64 (impl : Float64 → Nat) : Float64 → Nat
  | fin s m e =>
    let t := m * 2 ^ e.toNat / 2 ^ (-e).toNat
    if t = 0 then 0
    else if s = false ∧ t < uint64Mod then t
    else impl (fin s m e) % uint64Mod
  | x => impl x % uint64Mod

/-- A finite non-negative value that is `+0` or normal with exponent between
`lo` and `hi`. -/
def InRange (x : Float64) (lo hi : Int) : Prop :=
  match x with
  | fin s m e =>
    s = false ∧ ((m = 0 ∧ e = -1074) ∨ (2 ^ 52 ≤ m ∧ m < 2 ^ 53 ∧ lo ≤ e ∧ e ≤ hi))
  | _ => False

end Float64

/-! ## Go maps and time -/

/-- A Go `map[string]α`: at most one binding per key. -/
abbrev GoMap (α : Type) := List (GoString × α)

/-- Lookup `m[k]`, with the `exists` flag as `Option`. -/
def mapGet {α : Type} : GoMap α → GoString → Option α
  | [], _ => none
  | (k', v) :: rest, k => if k = k' then some v else mapGet rest k

/-- Assignment `m[k] = v`: any earlier binding of `k` is replaced. -/
def mapSet {α : Type} (m : GoMap α) (k : GoString) (v : α) : GoMap α :=
  (k, v) :: m.filter (fun p => decide (p.1 ≠ k))

/-- A `time.Time` returned by `time.Now()`: the wall clock as Unix seconds and
nanoseconds within the second, and the monotonic clock reading in nanoseconds. -/
structure Time where
  unixSec : Int
  nsec : Int
  mono : Int
  deriving DecidableEq, Repr

/-- Largest `time.Duration` (`int64` nanoseconds). -/
def maxDuration : Int := 2 ^ 63 - 1

/-- Smallest `time.Duration`. -/
def minDuration : Int := -(2 ^ 63)

/-- The method `t.Sub(u)` for two times carrying monotonic readings: the
difference in nanoseconds, saturated to the `int64` range. -/
def Time.Sub (t u : Time) : Int :=
  let d := t.mono - u.mono
  if maxDuration < d then maxDuration
  else if d < minDuration then minDuration
  else d

/-- The method `t.UnixMilli()`. -/
def Time.UnixMilli (t : Time) : Int := t.unixSec * 1000 + t.nsec / 1000000

/-- The method `d.Seconds()` of `time.Duration`:
`float64(d / Second) + float64(d % Second) / 1e9`, with truncating division. -/
def Duration.Seconds (d : Int) : Float64 :=
  let sec := Int.tdiv d 1000000000
  let nsec := Int.tmod d 1000000000
  Float64.add (Float64.ofInt sec) (Float64.div (Float64.ofInt nsec) (Float64.ofNat 1000000000))

/-! ## OS counter readings (go-osstat) -/

/-- The fields of `cpu.Stats` the collector reads; all are `uint64`. -/
structure cpu.Stats where
  User : Nat
  System : Nat
  Idle : Nat
  Nice : Nat
  Total : Nat
  deriving DecidableEq, Repr

/-- The fields of `memory.Stats` the collector reads; all are `uint64`. -/
structure memory.Stats where
  Total : Nat
  Used : Nat
  Cached : Nat
  Free : Nat
  SwapTotal : Nat
  SwapUsed : Nat
  SwapFree : Nat
  deriving DecidableEq, Repr

/-- One entry of the slice returned by `network.Get`. -/
structure network.Stats where
  Name : GoString
  RxBytes : Nat
  TxBytes : Nat
  deriving DecidableEq, Repr

/-! ## The data model of collector.go -/

structure CpuMetrics where
  User : Float64
  System : Float64
  Idle : Float64
  IOWait : Float64
  Steal : Float64
  Nice : Float64
  deriving DecidableEq, Repr

structure MemoryMetrics where
  Total : Nat
  Used : Nat
  Free : Nat
  Available : Nat
  Cached : Nat
  Buffers : Nat
  SwapTotal : Nat
  SwapUsed : Nat
  SwapFree : Nat
  deriving DecidableEq, Repr

structure DiskMetrics where
  Device : GoString
  MountPoint : GoString
  Total : Nat
  Used : Nat
  Free : Nat
  InodesTotal : Nat
  InodesUsed : Nat
  InodesFree : Nat
  ReadBytes : Nat
  WriteBytes : Nat
  deriving DecidableEq, Repr

structure NetworkMetrics where
  Interface : GoString
  RxBytes : Nat
  TxBytes : Nat
  RxPackets : Nat
  TxPackets : Nat
  RxErrors : Nat
  TxErrors : Nat
  RxDropped : Nat
  TxDropped : Nat
  deriving DecidableEq, Repr

structure SystemMetrics where
  Hostname : GoString
  Timestamp : Int
  OS : GoString
  OSVersion : GoString
  Architecture : GoString
  CPU : CpuMetrics
  Memory : MemoryMetrics
  Disks : List DiskMetrics
  Networks : List NetworkMetrics
  deriving DecidableEq, Repr

structure NetworkSample where
  rxBytes : Nat
  txBytes : Nat
  time : Time
  deriving DecidableEq, Repr

structure Collector where
  hostname : GoString
  prevNetwork : GoMap NetworkSample
  deriving DecidableEq, Repr

/-- The `float64` constant `0`. -/
def fzero : Float64 := Float64.ofNat 0

/-- The zero value of `CpuMetrics`. -/
def CpuMetrics.zero : CpuMetrics := ⟨fzero, fzero, fzero, fzero, fzero, fzero⟩

/-- The zero value of `MemoryMetrics`. -/
def MemoryMetrics.zero : MemoryMetrics := ⟨0, 0, 0, 0, 0, 0, 0, 0, 0⟩

/-- What the build and the machine fix: `runtime.GOOS`, `runtime.GOARCH`, and
the implementation-dependent result of converting an out-of-range `float64`
to `uint64`. -/
structure Platform where
  GOOS : GoString
  GOARCH : GoString
  convImpl : Float64 → Nat

/-- The results of the operating-system calls one `Collect` makes, in call
order: `time.Now` in `Collect`, the two `cpu.Get` around the 500 ms sleep,
`memory.Get`, `network.Get`, and `time.Now` in `collectNetwork`. -/
structure Tick where
  now : Time
  cpuBefore : Except GoError cpu.Stats
  cpuAfter : Except GoError cpu.Stats
  mem : Except GoError memory.Stats
  net : Except GoError (List network.Stats)
  netNow : Time

/-! ## The collector -/

/-- `New()`; `hostname` is what `os.Hostname()` returned (its error is dropped). -/
def New (hostname : GoString) : Collector :=
  { hostname := hostname, prevNetwork := [] }

/-- The value of `total` after `if total == 0 { total = 1 }`. -/
def cpuTotal (before after : cpu.Stats) : Nat :=
  let total := sub64 after.Total before.Total
  if total = 0 then 1 else total

/-- One CPU share: `float64(a - b) / float64(total) * 100`. -/
def cpuPercent (a b total : Nat) : Float64 :=
  Float64.mul (Float64.div (Float64.ofNat (sub64 a b)) (Float64.ofNat total)) (Float64.ofNat 100)

/-- `collectCPU`: the error returned and the metrics record after the call. -/
def collectCPU (metrics : SystemMetrics) (r1 r2 : Except GoError cpu.Stats) :
    Option GoError × SystemMetrics :=
  match r1 with
  | .error err => (some err, metrics)
  | .ok before =>
    match r2 with
    | .error err => (some err, metrics)
    | .ok after =>
      let total := cpuTotal before after
      (none, { metrics with CPU :=
        { User := cpuPercent after.User before.User total
          System := cpuPercent after.System before.System total
          Idle := cpuPercent after.Idle before.Idle total
          IOWait := Float64.ofNat 0
          Steal := Float64.ofNat 0
          Nice := cpuPercent after.Nice before.Nice total } })

/-- `collectMemory`. -/
def collectMemory (metrics : SystemMetrics) (r : Except GoError memory.Stats) :
    Option GoError × SystemMetrics :=
  match r with
  | .error err => (some err, metrics)
  | .ok mem =>
    (none, { metrics with Memory :=
      { Total := mem.Total
        Used := mem.Used
        Free := mem.Free
        Available := mem.Free
        Cached := mem.Cached
        Buffers := 0
        SwapTotal := mem.SwapTotal
        SwapUsed := mem.SwapUsed
        SwapFree := mem.SwapFree } })

/-- The name of the loopback interface. -/
def lo : GoString := ascii "lo"

/-- The entry appended for interface `n` with stored sample `prev` and elapsed
seconds `timeDelta`. -/
def rateEntry (p : Platform) (n : network.Stats) (prev : NetworkSample)
    (timeDelta : Float64) : NetworkMetrics :=
  let rxRate := Float64.div (Float64.ofNat (sub64 n.RxBytes prev.rxBytes)) timeDelta
  let txRate := Float64.div (Float64.ofNat (sub64 n.TxBytes prev.txBytes)) timeDelta
  { Interface := n.Name
    RxBytes := Float64.toUint64 p.convImpl rxRate
    TxBytes := Float64.toUint64 p.convImpl txRate
    RxPackets := 0
    TxPackets := 0
    RxErrors := 0
    TxErrors := 0
    RxDropped := 0
    TxDropped := 0 }

/-- One iteration of the loop of `collectNetwork` over `metrics.Networks` and
`currentSamples`. -/
def networkStep (p : Platform) (prevNetwork : GoMap NetworkSample) (now : Time)
    (acc : List NetworkMetrics × GoMap NetworkSample) (n : network.Stats) :
    List NetworkMetrics × GoMap NetworkSample :=
  if n.Name = lo then acc
  else
    let nets :=
      match mapGet prevNetwork n.Name with
      | some prev =>
        let timeDelta := Duration.Seconds (now.Sub prev.time)
        if Float64.lt fzero timeDelta then acc.1 ++ [rateEntry p n prev timeDelta]
        else acc.1
      | none => acc.1
    (nets, mapSet acc.2 n.Name { rxBytes := n.RxBytes, txBytes := n.TxBytes, time := now })

/-- The entries one iteration of the loop appends to `metrics.Networks`. -/
def stepEntries (p : Platform) (prevNetwork : GoMap NetworkSample) (now : Time)
    (n : network.Stats) : List NetworkMetrics :=
  (networkStep p prevNetwork now ([], []) n).1

/-- The sample `collectNetwork` stores for a record of the read. -/
def sampleOf (now : Time) (n : network.Stats) : NetworkSample :=
  { rxBytes := n.RxBytes, txBytes := n.TxBytes, time := now }

/-- `collectNetwork`: the error returned, the metrics record and the collector
after the call. -/
def collectNetwork (p : Platform) (c : Collector) (metrics : SystemMetrics)
    (r : Except GoError (List network.Stats)) (now : Time) :
    Option GoError × SystemMetrics × Collector :=
  match r with
  | .error err => (some err, metrics, c)
  | .ok networks =>
    let out := networks.foldl (networkStep p c.prevNetwork now) (metrics.Networks, [])
    (none, { metrics with Networks := out.1 }, { c with prevNetwork := out.2 })

/-- `collectDisk`. -/
def collectDisk (metrics : SystemMetrics) : Option GoError × SystemMetrics :=
  (none, { metrics with Disks :=
    [{ Device := ascii "/"
       MountPoint := ascii "/"
       Total := 0
       Used := 0
       Free := 0
       InodesTotal := 0
       InodesUsed := 0
       InodesFree := 0
       ReadBytes := 0
       WriteBytes := 0 }] })

/-- `Collect`: the returned pair `(*SystemMetrics, error)` and the collector
after the call. -/
def Collect (p : Platform) (c : Collector) (t : Tick) :
    (Option SystemMetrics × Option GoError) × Collector :=
  let metrics : SystemMetrics :=
    { Hostname := c.hostname
      Timestamp := t.now.UnixMilli
      OS := p.GOOS
      OSVersion := []
      Architecture := p.GOARCH
      CPU := CpuMetrics.zero
      Memory := MemoryMetrics.zero
      Disks := []
      Networks := [] }
  match collectCPU metrics t.cpuBefore t.cpuAfter with
  | (some err, _) => ((none, some err), c)
  | (none, m1) =>
    match collectMemory m1 t.mem with
    | (some err, _) => ((none, some err), c)
    | (none, m2) =>
      match collectNetwork p c m2 t.net t.netNow with
      | (some err, _, c1) => ((none, some err), c1)
      | (none, m3, c1) =>
        match collectDisk m3 with
        | (some err, _) => ((none, some err), c1)
        | (none, m4) => ((some m4, none), c1)

/-- A run of consecutive `Collect` calls on one collector: the results in call
order and the collector after the last call. -/
def collectAll (p : Platform) : Collector → List Tick →
    List (Option SystemMetrics × Option GoError) × Collector
  | c, [] => ([], c)
  | c, t :: ts =>
    let r := Collect p c t
    let rest := collectAll p r.2 ts
    (r.1 :: rest.1, rest.2)

/-! ## encoding/json on the wire types

A JSON document is modelled by its tree: the members of an object in the
order written, a string by the bytes it denotes, a number by the value of its
literal (`strconv` writes an integer in full and a `float64` with the fewest
digits that parse back to the same value). `Marshal*` follows the struct tags
of the source; `Unmarshal*` reads a tree back into the same type, starting
from the zero value. -/

/-- A JSON document. -/
inductive JValue where
  | str (s : GoString)
  | int (i : Int)
  | float (f : Float64)
  | arr (items : List JValue)
  | obj (members : List (GoString × JValue))

/-- Number of bytes of the well-formed UTF-8 sequence at the head of `s`, or
`0` when the first byte does not start one (as `utf8.DecodeRuneInString`
reporting `RuneError` with width 1). -/
def utf8Len : GoString → Nat
  | [] => 0
  | b0 :: rest =>
    let cont (b : Nat) : Bool := decide (0x80 ≤ b ∧ b ≤ 0xBF)
    let tail2 (lo hi : Nat) : Nat :=
      match rest with
      | b1 :: b2 :: _ => if lo ≤ b1 ∧ b1 ≤ hi ∧ cont b2 then 3 else 0
      | _ => 0
    let tail3 (lo hi : Nat) : Nat :=
      match rest with
      | b1 :: b2 :: b3 :: _ => if lo ≤ b1 ∧ b1 ≤ hi ∧ cont b2 ∧ cont b3 then 4 else 0
      | _ => 0
    if b0 < 0x80 then 1
    else if 0xC2 ≤ b0 ∧ b0 ≤ 0xDF then
      match rest with
      | b1 :: _ => if cont b1 then 2 else 0
      | _ => 0
    else if b0 = 0xE0 then tail2 0xA0 0xBF
    else if b0 = 0xED then tail2 0x80 0x9F
    else if 0xE1 ≤ b0 ∧ b0 ≤ 0xEF then tail2 0x80 0xBF
    else if b0 = 0xF0 then tail3 0x90 0xBF
    else if 0xF1 ≤ b0 ∧ b0 ≤ 0xF3 then tail3 0x80 0xBF
    else if b0 = 0xF4 then tail3 0x80 0x8F
    else 0

/-- Worker of `coerceUTF8`; `skip` bytes of a sequence already accepted remain
to be copied. -/
def coerceAux : Nat → GoString → GoString
  | _, [] => []
  | skip + 1, b :: rest => b :: coerceAux skip rest
  | 0, b :: rest =>
    match utf8Len (b :: rest) with
    | 0 => 0xEF :: 0xBF :: 0xBD :: coerceAux 0 rest
    | k + 1 => b :: coerceAux k rest

/-- The bytes a JSON string written by `json.Marshal` denotes: the string
"coerced to valid UTF-8, replacing invalid bytes with the Unicode replacement
rune" U+FFFD (bytes EF BF BD). -/
def coerceUTF8 (s : GoString) : GoString := coerceAux 0 s

/-- Worker of `validUTF8`. -/
def validAux : Nat → GoString → Bool
  | skip, [] => decide (skip = 0)
  | skip + 1, _ :: rest => validAux skip rest
  | 0, b :: rest =>
    match utf8Len (b :: rest) with
    | 0 => false
    | k + 1 => validAux k rest

/-- `utf8.ValidString`. -/
def validUTF8 (s : GoString) : Bool := validAux 0 s

/-- The member named `k` of an object; the last one when repeated. -/
def objGet : List (GoString × JValue) → GoString → Option JValue
  | [], _ => none
  | (k', v) :: rest, k =>
    match objGet rest k with
    | some w => some w
    | none => if k = k' then some v else none

/-- The member named `k` of a document that is an object. -/
def JValue.member (k : GoString) : JValue → Option JValue
  | .obj ms => objGet ms k
  | _ => none

/-- The member names of a document that is an object, in order. -/
def JValue.keys : JValue → List GoString
  | .obj ms => ms.map Prod.fst
  | _ => []

/-- The document reached from `v` by following member names. -/
def JValue.path : List String → JValue → Option JValue
  | [], v => some v
  | k :: ks, v => (v.member (ascii k)).bind (JValue.path ks)

/-- The member names of the object found at `path` in a marshalled document
(`none` when marshalling failed or there is no such object). -/
def wireKeys (path : List String) : Except GoError JValue → Option (List GoString)
  | .ok v => (v.path path).map JValue.keys
  | .error _ => none

/-- A string member. -/
def jstr (s : GoString) : JValue := .str (coerceUTF8 s)

/-- A `float64` member: NaN and the infinities are an `UnsupportedValueError`. -/
def jfloat : Float64 → Except GoError JValue
  | .fin s m e => .ok (.float (.fin s m e))
  | .inf false => .error (ascii "json: unsupported value: +Inf")
  | .inf true => .error (ascii "json: unsupported value: -Inf")
  | .nan => .error (ascii "json: unsupported value: NaN")

/-- A `float64` member tagged `omitempty`: left out when the value equals zero. -/
def jfloatOmit (k : String) (f : Float64) : Except GoError (List (GoString × JValue)) :=
  if f.isZero then .ok [] else (jfloat f).map (fun v => [(ascii k, v)])

/-- An unsigned integer member tagged `omitempty`: left out when zero. -/
def juintOmit (k : String) (n : Nat) : List (GoString × JValue) :=
  if n = 0 then [] else [(ascii k, .int n)]

/-- A string member tagged `omitempty`: left out when empty. -/
def jstrOmit (k : String) (s : GoString) : List (GoString × JValue) :=
  if s = [] then [] else [(ascii k, jstr s)]

/-- An array member tagged `omitempty`: left out when the slice has length 0. -/
def jarrOmit (k : String) (items : List JValue) : List (GoString × JValue) :=
  match items with
  | [] => []
  | _ :: _ => [(ascii k, .arr items)]

/-- `json.Marshal` on a `CpuMetrics`. -/
def MarshalCpuMetrics (c : CpuMetrics) : Except GoError JValue := do
  let user ← jfloat c.User
  let system ← jfloat c.System
  let idle ← jfloat c.Idle
  let iowait ← jfloatOmit "iowait" c.IOWait
  let steal ← jfloatOmit "steal" c.Steal
  let nice ← jfloatOmit "nice" c.Nice
  pure (.obj ([(ascii "user", user), (ascii "system", system), (ascii "idle", idle)]
    ++ iowait ++ steal ++ nice))

/-- `json.Marshal` on a `MemoryMetrics`. -/
def MarshalMemoryMetrics (m : MemoryMetrics) : JValue :=
  .obj ([(ascii "total", .int m.Total), (ascii "used", .int m.Used),
      (ascii "free", .int m.Free), (ascii "available", .int m.Available)]
    ++ juintOmit "cached" m.Cached ++ juintOmit "buffers" m.Buffers
    ++ juintOmit "swapTotal" m.SwapTotal ++ juintOmit "swapUsed" m.SwapUsed
    ++ juintOmit "swapFree" m.SwapFree)

/-- `json.Marshal` on a `DiskMetrics`. -/
def MarshalDiskMetrics (d : DiskMetrics) : JValue :=
  .obj ([(ascii "device", jstr d.Device), (ascii "mountPoint", jstr d.MountPoint),
      (ascii "total", .int d.Total), (ascii "used", .int d.Used), (ascii "free", .int d.Free)]
    ++ juintOmit "inodesTotal" d.InodesTotal ++ juintOmit "inodesUsed" d.InodesUsed
    ++ juintOmit "inodesFree" d.InodesFree ++ juintOmit "readBytes" d.ReadBytes
    ++ juintOmit "writeBytes" d.WriteBytes)

/-- `json.Marshal` on a `NetworkMetrics`. -/
def MarshalNetworkMetrics (n : NetworkMetrics) : JValue :=
  .obj ([(ascii "interface", jstr n.Interface), (ascii "rxBytes", .int n.RxBytes),
      (ascii "txBytes", .int n.TxBytes)]
    ++ juintOmit "rxPackets" n.RxPackets ++ juintOmit "txPackets" n.TxPackets
    ++ juintOmit "rxErrors" n.RxErrors ++ juintOmit "txErrors" n.TxErrors
    ++ juintOmit "rxDropped" n.RxDropped ++ juintOmit "txDropped" n.TxDropped)

/-- `json.Marshal` on a `SystemMetrics`. -/
def MarshalSystemMetrics (s : SystemMetrics) : Except GoError JValue := do
  let cpu ← MarshalCpuMetrics s.CPU
  pure (.obj ([(ascii "hostname", jstr s.Hostname), (ascii "timestamp", .int s.Timestamp),
      (ascii "os", jstr s.OS)]
    ++ jstrOmit "osVersion" s.OSVersion ++ jstrOmit "architecture" s.Architecture
    ++ [(ascii "cpu", cpu), (ascii "memory", MarshalMemoryMetrics s.Memory)]
    ++ jarrOmit "disks" (s.Disks.map MarshalDiskMetrics)
    ++ jarrOmit "networks" (s.Networks.map MarshalNetworkMetrics)))

/-- A string field: absent leaves the zero value; any other kind of document
is an `UnmarshalTypeError`. -/
def getStr (ms : List (GoString × JValue)) (k : String) : Option GoString :=
  match objGet ms (ascii k) with
  | none => some []
  | some (.str s) => some s
  | some _ => none

/-- A `uint64` field. -/
def getUint (ms : List (GoString × JValue)) (k : String) : Option Nat :=
  match objGet ms (ascii k) with
  | none => some 0
  | some (.int i) => if 0 ≤ i ∧ i < 2 ^ 64 then some i.toNat else none
  | some _ => none

/-- An `int64` field. -/
def getInt (ms : List (GoString × JValue)) (k : String) : Option Int :=
  match objGet ms (ascii k) with
  | none => some 0
  | some (.int i) => if -(2 ^ 63) ≤ i ∧ i < 2 ^ 63 then some i else none
  | some _ => none

/-- A `float64` field. -/
def getFloat (ms : List (GoString × JValue)) (k : String) : Option Float64 :=
  match objGet ms (ascii k) with
  | none => some fzero
  | some (.float f) => some f
  | some (.int i) => some (Float64.ofInt i)
  | some _ => none

/-- `json.Unmarshal` into a `CpuMetrics`. -/
def UnmarshalCpuMetrics : JValue → Option CpuMetrics
  | .obj ms => do
    let user ← getFloat ms "user"
    let system ← getFloat ms "system"
    let idle ← getFloat ms "idle"
    let iowait ← getFloat ms "iowait"
    let steal ← getFloat ms "steal"
    let nice ← getFloat ms "nice"
    pure { User := user, System := system, Idle := idle, IOWait := iowait, Steal := steal,
           Nice := nice }
  | _ => none

/-- `json.Unmarshal` into a `MemoryMetrics`. -/
def UnmarshalMemoryMetrics : JValue → Option MemoryMetrics
  | .obj ms => do
    let total ← getUint ms "total"
    let used ← getUint ms "used"
    let free ← getUint ms "free"
    let available ← getUint ms "available"
    let cached ← getUint ms "cached"
    let buffers ← getUint ms "buffers"
    let swapTotal ← getUint ms "swapTotal"
    let swapUsed ← getUint ms "swapUsed"
    let swapFree ← getUint ms "swapFree"
    pure { Total := total, Used := used, Free := free, Available := available,
           Cached := cached, Buffers := buffers, SwapTotal := swapTotal,
           SwapUsed := swapUsed, SwapFree := swapFree }
  | _ => none

/-- `json.Unmarshal` into a `DiskMetrics`. -/
def UnmarshalDiskMetrics : JValue → Option DiskMetrics
  | .obj ms => do
    let device ← getStr ms "device"
    let mountPoint ← getStr ms "mountPoint"
    let total ← getUint ms "total"
    let used ← getUint ms "used"
    let free ← getUint ms "free"
    let inodesTotal ← getUint ms "inodesTotal"
    let inodesUsed ← getUint ms "inodesUsed"
    let inodesFree ← getUint ms "inodesFree"
    let readBytes ← getUint ms "readBytes"
    let writeBytes ← getUint ms "writeBytes"
    pure { Device := device, MountPoint := mountPoint, Total := total, Used := used,
           Free := free, InodesTotal := inodesTotal, InodesUsed := inodesUsed,
           InodesFree := inodesFree, ReadBytes := readBytes, WriteBytes := writeBytes }
  | _ => none

/-- `json.Unmarshal` into a `NetworkMetrics`. -/
def UnmarshalNetworkMetrics : JValue → Option NetworkMetrics
  | .obj ms => do
    let interface ← getStr ms "interface"
    let rxBytes ← getUint ms "rxBytes"
    let txBytes ← getUint ms "txBytes"
    let rxPackets ← getUint ms "rxPackets"
    let txPackets ← getUint ms "txPackets"
    let rxErrors ← getUint ms "rxErrors"
    let txErrors ← getUint ms "txErrors"
    let rxDropped ← getUint ms "rxDropped"
    let txDropped ← getUint ms "txDropped"
    pure { Interface := interface, RxBytes := rxBytes, TxBytes := txBytes,
           RxPackets := rxPackets, TxPackets := txPackets, RxErrors := rxErrors,
           TxErrors := txErrors, RxDropped := rxDropped, TxDropped := txDropped }
  | _ => none

/-- A slice field decoded element by element with `f`. -/
def getArr {α : Type} (f : JValue → Option α) (ms : List (GoString × JValue)) (k : String) :
    Option (List α) :=
  match objGet ms (ascii k) with
  | none => some []
  | some (.arr items) => items.mapM f
  | some _ => none

/-- A struct field decoded with `f`, `zero` when absent. -/
def getObj {α : Type} (f : JValue → Option α) (zero : α) (ms : List (GoString × JValue))
    (k : String) : Option α :=
  match objGet ms (ascii k) with
  | none => some zero
  | some v => f v

/-- `json.Unmarshal` into a `SystemMetrics`. -/
def UnmarshalSystemMetrics : JValue → Option SystemMetrics
  | .obj ms => do
    let hostname ← getStr ms "hostname"
    let timestamp ← getInt ms "timestamp"
    let os ← getStr ms "os"
    let osVersion ← getStr ms "osVersion"
    let architecture ← getStr ms "architecture"
    let cpu ← getObj UnmarshalCpuMetrics CpuMetrics.zero ms "cpu"
    let memory ← getObj UnmarshalMemoryMetrics MemoryMetrics.zero ms "memory"
    let disks ← getArr UnmarshalDiskMetrics ms "disks"
    let networks ← getArr UnmarshalNetworkMetrics ms "networks"
    pure { Hostname := hostname, Timestamp := timestamp, OS := os, OSVersion := osVersion,
           Architecture := architecture, CPU := cpu, Memory := memory, Disks := disks,
           Networks := networks }
  | _ => none

/-- The fields of a memory read hold `uint64` values. -/
def memory.Stats.Wire (m : memory.Stats) : Prop :=
  m.Total < 2 ^ 64 ∧ m.Used < 2 ^ 64 ∧ m.Cached < 2 ^ 64 ∧ m.Free < 2 ^ 64 ∧
  m.SwapTotal < 2 ^ 64 ∧ m.SwapUsed < 2 ^ 64 ∧ m.SwapFree < 2 ^ 64

/-- The values of a `CpuMetrics` are finite, and a zero among the fields
tagged `omitempty` is `+0`. -/
def CpuMetrics.Wire (c : CpuMetrics) : Prop :=
  (c.User.isFinite = true ∧ c.System.isFinite = true ∧ c.Idle.isFinite = true ∧
    c.IOWait.isFinite = true ∧ c.Steal.isFinite = true ∧ c.Nice.isFinite = true) ∧
  (c.IOWait.isZero = true → c.IOWait = fzero) ∧ (c.Steal.isZero = true → c.Steal = fzero) ∧
  (c.Nice.isZero = true → c.Nice = fzero)

/-- The fields of a `MemoryMetrics` hold `uint64` values. -/
def MemoryMetrics.Wire (m : MemoryMetrics) : Prop :=
  m.Total < 2 ^ 64 ∧ m.Used < 2 ^ 64 ∧ m.Free < 2 ^ 64 ∧ m.Available < 2 ^ 64 ∧
  m.Cached < 2 ^ 64 ∧ m.Buffers < 2 ^ 64 ∧ m.SwapTotal < 2 ^ 64 ∧ m.SwapUsed < 2 ^ 64 ∧
  m.SwapFree < 2 ^ 64

/-- The numbers of a `NetworkMetrics` are `uint64` values. -/
def NetworkMetrics.Wire (n : NetworkMetrics) : Prop :=
  n.RxBytes < 2 ^ 64 ∧ n.TxBytes < 2 ^ 64 ∧ n.RxPackets < 2 ^ 64 ∧
  n.TxPackets < 2 ^ 64 ∧ n.RxErrors < 2 ^ 64 ∧ n.TxErrors < 2 ^ 64 ∧
  n.RxDropped < 2 ^ 64 ∧ n.TxDropped < 2 ^ 64

/-- Every string of a snapshot is valid UTF-8. -/
def SystemMetrics.ValidStrings (s : SystemMetrics) : Prop :=
  validUTF8 s.Hostname = true ∧ validUTF8 s.OS = true ∧ validUTF8 s.OSVersion = true ∧
  validUTF8 s.Architecture = true ∧
  (∀ d ∈ s.Disks, validUTF8 d.Device = true ∧ validUTF8 d.MountPoint = true) ∧
  (∀ n ∈ s.Networks, validUTF8 n.Interface = true)

/-- Every number of a snapshot is a value of its Go type (`int64`, `uint64`, a
finite `float64`). -/
def SystemMetrics.Wire (s : SystemMetrics) : Prop :=
  (-(2 ^ 63) ≤ s.Timestamp ∧ s.Timestamp < 2 ^ 63) ∧ s.CPU.Wire ∧ s.Memory.Wire ∧
  (∀ d ∈ s.Disks, d.Total < 2 ^ 64 ∧ d.Used < 2 ^ 64 ∧ d.Free < 2 ^ 64 ∧
    d.InodesTotal < 2 ^ 64 ∧ d.InodesUsed < 2 ^ 64 ∧ d.InodesFree < 2 ^ 64 ∧
    d.ReadBytes < 2 ^ 64 ∧ d.WriteBytes < 2 ^ 64) ∧
  (∀ n ∈ s.Networks, n.Wire)

/-! ## transport/http.go -/

/-- The fields of `config.Config` the transport reads. -/
structure Config where
  Endpoint : GoString
  APIKey : GoString
  HostID : GoString
  Hostname : GoString
  Tags : GoMap GoString

structure MetricsPayload where
  HostID : GoString
  Hostname : GoString
  Metrics : SystemMetrics
  Tags : GoMap GoString

structure HTTPTransport where
  config : Config
  baseURL : GoString
  apiKey : GoString

/-- `NewHTTPTransport`. -/
def NewHTTPTransport (cfg : Config) : HTTPTransport :=
  { config := cfg, baseURL := cfg.Endpoint, apiKey := cfg.APIKey }

/-- Bytewise order of two strings, as Go compares map keys when encoding. -/
def bytesLt : GoString → GoString → Bool
  | [], [] => false
  | [], _ :: _ => true
  | _ :: _, [] => false
  | a :: as, b :: bs => if a < b then true else if b < a then false else bytesLt as bs

/-- Insert a binding into a list of bindings ordered by key. -/
def insertTag (kv : GoString × GoString) : List (GoString × GoString) →
    List (GoString × GoString)
  | [] => [kv]
  | x :: xs => if bytesLt x.1 kv.1 then x :: insertTag kv xs else kv :: x :: xs

/-- The bindings of a map ordered by key. -/
def sortTags (m : GoMap GoString) : List (GoString × GoString) :=
  m.foldr insertTag []

/-- The member "tags", tagged `omitempty`: left out when the map is empty;
otherwise an object with the bindings in key order. -/
def tagsMember (tags : GoMap GoString) : List (GoString × JValue) :=
  match tags with
  | [] => []
  | _ :: _ =>
    [(ascii "tags", .obj ((sortTags tags).map (fun kv => (coerceUTF8 kv.1, jstr kv.2))))]

/-- `json.Marshal` on a `MetricsPayload`. -/
def MarshalMetricsPayload (p : MetricsPayload) : Except GoError JValue := do
  let metrics ← MarshalSystemMetrics p.Metrics
  pure (.obj ([(ascii "hostId", jstr p.HostID), (ascii "hostname", jstr p.Hostname),
    (ascii "metrics", metrics)] ++ tagsMember p.Tags))

/-- An outgoing request: method, URL, headers set, body. -/
structure Request where
  method : GoString
  url : GoString
  header : List (GoString × GoString)
  body : JValue

/-- What `SendMetrics` reads of an `http.Response`: the status code and the
bytes `io.ReadAll(resp.Body)` returns (its error is dropped by the source). -/
structure Response where
  StatusCode : Int
  Body : GoString

/-- The outcome of the two fallible library calls after marshalling:
`http.NewRequestWithContext` (its error, if any, for the URL) and
`t.client.Do`. -/
structure HTTPEnv where
  newRequestErr : GoString → Option GoError
  Do : Request → Except GoError Response

/-- The verb `%d` of `fmt` on an `int`. -/
def formatInt (i : Int) : GoString :=
  (if i < 0 then ascii "-" else []) ++ (Nat.toDigits 10 i.natAbs).map Char.toNat

/-- The request `SendMetrics` hands to the client: a POST of the body to
`url` with the two headers set. -/
def ingestRequest (t : HTTPTransport) (url : GoString) (body : JValue) : Request :=
  { method := ascii "POST"
    url := url
    header := [(ascii "Content-Type", ascii "application/json"),
               (ascii "X-API-Key", t.apiKey)]
    body := body }

/-- The URL `SendMetrics` posts to. -/
def ingestURL (t : HTTPTransport) : GoString := t.baseURL ++ ascii "/api/v1/metrics/ingest"

/-- The payload `SendMetrics` marshals. -/
def payloadOf (t : HTTPTransport) (metrics : SystemMetrics) : MetricsPayload :=
  { HostID := t.config.HostID
    Hostname := t.config.Hostname
    Metrics := metrics
    Tags := t.config.Tags }

/-- `SendMetrics`: the error returned (`none` for `nil`). -/
def SendMetrics (t : HTTPTransport) (env : HTTPEnv) (metrics : SystemMetrics) :
    Option GoError :=
  let payload := payloadOf t metrics
  match MarshalMetricsPayload payload with
  | .error err => some (ascii "failed to marshal metrics: " ++ err)
  | .ok body =>
    let url := ingestURL t
    match env.newRequestErr url with
    | some err => some (ascii "failed to create request: " ++ err)
    | none =>
      match env.Do (ingestRequest t url body) with
      | .error err => some (ascii "failed to send metrics: " ++ err)
      | .ok resp =>
        if 400 ≤ resp.StatusCode then
          some (ascii "metrics endpoint returned " ++ formatInt resp.StatusCode
            ++ ascii ": " ++ resp.Body)
        else none

/-! ## The end-to-end scenario of the specification -/

/-- A platform for the examples. -/
def exPlatform : Platform :=
  { GOOS := ascii "linux", GOARCH := ascii "amd64", convImpl := fun _ => 0 }

/-- An interface name for the examples. -/
def eth0 : GoString := ascii "eth0"

/-- A time with the given monotonic reading, in seconds. -/
def exTime (sec : Int) : Time :=
  { unixSec := 1700000000 + sec, nsec := 0, mono := sec * 1000000000 }

/-- A collector holding the sample `rx = 1000, tx = 500` taken at `T0`. -/
def exCollector : Collector :=
  { hostname := ascii "host"
    prevNetwork := [(eth0, { rxBytes := 1000, txBytes := 500, time := exTime 0 })] }

/-- The memory read of the scenario. -/
def exMem : memory.Stats :=
  { Total := 16000000000, Used := 12000000000, Cached := 0, Free := 4000000000,
    SwapTotal := 0, SwapUsed := 0, SwapFree := 0 }

/-- The reads of the scenario, two seconds after `T0`. -/
def exTick : Tick :=
  { now := exTime 2
    cpuBefore := .ok { User := 100, System := 50, Idle := 850, Nice := 0, Total := 1000 }
    cpuAfter := .ok { User := 110, System := 55, Idle := 935, Nice := 0, Total := 1100 }
    mem := .ok exMem
    net := .ok [{ Name := eth0, RxBytes := 2000, TxBytes := 900 }]
    netNow := exTime 2 }

/-- The reads of a later tick, four seconds after `T0`, listing a new interface. -/
def exTick2 : Tick :=
  { exTick with
    now := exTime 4
    net := .ok [{ Name := eth0, RxBytes := 3000, TxBytes := 1000 },
                { Name := ascii "eth1", RxBytes := 10, TxBytes := 10 }]
    netNow := exTime 4 }

/-- A transport for the examples. -/
def exTransport : HTTPTransport :=
  NewHTTPTransport
    { Endpoint := ascii "http://localhost:3333", APIKey := ascii "key",
      HostID := ascii "host", Hostname := ascii "host", Tags := [] }

/-- A server that answers every request with status 503 and body "overloaded". -/
def exEnv : HTTPEnv :=
  { newRequestErr := fun _ => none
    Do := fun _ => .ok { StatusCode := 503, Body := ascii "overloaded" } }

/-- The snapshot of the scenario: user 10 %, system 5 %, idle 85 %. -/
def exSnapshot : SystemMetrics :=
  { Hostname := ascii "host"
    Timestamp := 1700000002000
    OS := ascii "linux"
    OSVersion := []
    Architecture := ascii "amd64"
    CPU := { User := Float64.ofNat 10, System := Float64.ofNat 5, Idle := Float64.ofNat 85,
             IOWait := Float64.ofNat 0, Steal := Float64.ofNat 0, Nice := Float64.ofNat 0 }
    Memory := { Total := 16000000000, Used := 12000000000, Free := 4000000000,
                Available := 4000000000, Cached := 0, Buffers := 0, SwapTotal := 0,
                SwapUsed := 0, SwapFree := 0 }
    Disks := []
    Networks := [] }

/-- An interface name that is not valid UTF-8: the single byte FF. -/
def rawName : GoString := [0xFF]

/-- The reads of the scenario with the interface named `rawName`. -/
def rawTick : Tick :=
  { exTick with net := .ok [{ Name := rawName, RxBytes := 2000, TxBytes := 900 }] }

/-- The reads of the later tick with the interface named `rawName`. -/
def rawTick2 : Tick :=
  { exTick2 with net := .ok [{ Name := rawName, RxBytes := 3000, TxBytes := 1000 }] }

/-- The reads of a tick, one second after `T0`, whose network read fails. -/
def failTick : Tick :=
  { exTick with
    now := exTime 1
    net := .error (ascii "network unavailable")
    netNow := exTime 1 }

/-- The reads of the scenario after a counter reset: rx is back to 400, below
the stored 1000. -/
def resetTick : Tick :=
  { exTick with net := .ok [{ Name := eth0, RxBytes := 400, TxBytes := 900 }] }

/-- The reads of the scenario with the interface listed twice. -/
def dupTick : Tick :=
  { exTick with
    net := .ok [{ Name := eth0, RxBytes := 2000, TxBytes := 900 },
                { Name := eth0, RxBytes := 2600, TxBytes := 950 }] }

/-- The reads of a tick 1.1 seconds after `T0`, 1100 bytes received and sent
since `T0`. -/
def fracTick : Tick :=
  { exTick with
    net := .ok [{ Name := eth0, RxBytes := 2100, TxBytes := 1600 }]
    netNow := { unixSec := 1700000001, nsec := 100000000, mono := 1100000000 } }

/-! ## Rounding: normalisation and range of the results -/

namespace Float64

/-- Halving `n` finds the exponent of the power of two just below it. -/
theorem ilog2_spec (fuel : Nat) : ∀ n : Nat, 1 ≤ n → n ≤ fuel →
    2 ^ ilog2 fuel n ≤ n ∧ n < 2 ^ (ilog2 fuel n + 1) := by
  induction fuel with
  | zero => intro n h1 h2; omega
  | succ f ih =>
    intro n h1 h2
    unfold ilog2
    by_cases h : 2 ≤ n
    · rw [if_pos h]
      have := ih (n / 2) (by omega) (by omega)
      obtain ⟨h3, h4⟩ := this
      constructor
      · rw [pow_succ]; omega
      · rw [pow_succ]; omega
    · rw [if_neg h]
      have : n = 1 := by omega
      subst this; simp

/-- The value `log2 n` is the floor of the binary logarithm of `n`. -/
theorem log2_spec (n : Nat) (h : 1 ≤ n) : 2 ^ log2 n ≤ n ∧ n < 2 ^ (log2 n + 1) :=
  ilog2_spec n n h le_rfl

/-- The scaled quotient used by `round` is `n / d * 2^(-e)`. -/
theorem ratio_eq (n d : Nat) (e : Int) :
    ((n * 2 ^ (-e).toNat : Nat) : ℚ) / ((d * 2 ^ e.toNat : Nat) : ℚ) = (n : ℚ) / d * (2 : ℚ) ^ (-e) := by
  rcases le_total 0 e with h | h
  · obtain ⟨k, rfl⟩ := Int.eq_ofNat_of_zero_le h
    have : (-(k : ℤ)).toNat = 0 := by omega
    simp [this, zpow_neg]
    field_simp
  · obtain ⟨k, hk⟩ := Int.eq_ofNat_of_zero_le (neg_nonneg.2 h)
    have h1 : e.toNat = 0 := by omega
    rw [hk, h1]
    simp
    ring

/-- The scaled divisor is positive. -/
theorem den_pos (d : Nat) (e : Int) (hd : 1 ≤ d) : 0 < ((d * 2 ^ e.toNat : Nat) : ℚ) := by
  have : 0 < d * 2 ^ e.toNat := Nat.mul_pos hd (by positivity)
  exact_mod_cast this

/-- Comparison of the scaled quotient with an integer, above. -/
theorem ratio_lt_iff (n d K : Nat) (e : Int) (hd : 1 ≤ d) :
    n * 2 ^ (-e).toNat < K * (d * 2 ^ e.toNat) ↔ (n : ℚ) / d * (2 : ℚ) ^ (-e) < K := by
  rw [← ratio_eq, div_lt_iff₀ (den_pos d e hd)]
  constructor
  · intro h; exact_mod_cast h
  · intro h; exact_mod_cast h

/-- Comparison of the scaled quotient with an integer, below. -/
theorem ratio_le_iff (n d K : Nat) (e : Int) (hd : 1 ≤ d) :
    K * (d * 2 ^ e.toNat) ≤ n * 2 ^ (-e).toNat ↔ (K : ℚ) ≤ (n : ℚ) / d * (2 : ℚ) ^ (-e) := by
  rw [← ratio_eq, le_div_iff₀ (den_pos d e hd)]
  constructor
  · intro h; exact_mod_cast h
  · intro h; exact_mod_cast h

/-- The quotient `n / d` lies between the powers of two given by the
logarithms. -/
theorem quot_bounds (n d : Nat) (hn : 1 ≤ n) (hd : 1 ≤ d) :
    (2 : ℚ) ^ ((log2 n : ℤ) - log2 d - 1) < (n : ℚ) / d ∧
    (n : ℚ) / d < (2 : ℚ) ^ ((log2 n : ℤ) - log2 d + 1) := by
  obtain ⟨ha1, ha2⟩ := log2_spec n hn
  obtain ⟨hb1, hb2⟩ := log2_spec d hd
  have hdq : (0 : ℚ) < d := by exact_mod_cast hd
  have ha1q : (2 : ℚ) ^ (log2 n) ≤ n := by exact_mod_cast ha1
  have ha2q : (n : ℚ) < (2 : ℚ) ^ (log2 n + 1) := by exact_mod_cast ha2
  have hb1q : (2 : ℚ) ^ (log2 d) ≤ d := by exact_mod_cast hb1
  have hb2q : (d : ℚ) < (2 : ℚ) ^ (log2 d + 1) := by exact_mod_cast hb2
  have h2 : (0 : ℚ) < 2 := by norm_num
  constructor
  · rw [lt_div_iff₀ hdq]
    have e1 : (2 : ℚ) ^ ((log2 n : ℤ) - log2 d - 1) * (2 : ℚ) ^ (log2 d + 1) = (2 : ℚ) ^ (log2 n) := by
      rw [← zpow_natCast, ← zpow_natCast, ← zpow_add₀ (by norm_num)]
      congr 1; push_cast; ring
    calc (2 : ℚ) ^ ((log2 n : ℤ) - log2 d - 1) * d
        < (2 : ℚ) ^ ((log2 n : ℤ) - log2 d - 1) * (2 : ℚ) ^ (log2 d + 1) := by
          apply mul_lt_mul_of_pos_left hb2q (zpow_pos h2 _)
      _ = (2 : ℚ) ^ (log2 n) := e1
      _ ≤ n := ha1q
  · rw [div_lt_iff₀ hdq]
    have e1 : (2 : ℚ) ^ ((log2 n : ℤ) - log2 d + 1) * (2 : ℚ) ^ (log2 d) = (2 : ℚ) ^ (log2 n + 1) := by
      rw [← zpow_natCast, ← zpow_natCast, ← zpow_add₀ (by norm_num)]
      congr 1; push_cast; ring
    calc (n : ℚ) < (2 : ℚ) ^ (log2 n + 1) := ha2q
      _ = (2 : ℚ) ^ ((log2 n : ℤ) - log2 d + 1) * (2 : ℚ) ^ (log2 d) := e1.symm
      _ ≤ (2 : ℚ) ^ ((log2 n : ℤ) - log2 d + 1) * d := by
          apply mul_le_mul_of_nonneg_left hb1q (le_of_lt (zpow_pos h2 _))

/-- A larger exponent gives a smaller scaled quotient. -/
theorem scale_anti (q : ℚ) (hq : 0 ≤ q) {e f : Int} (h : e ≤ f) :
    q * (2 : ℚ) ^ (-f) ≤ q * (2 : ℚ) ^ (-e) :=
  mul_le_mul_of_nonneg_left (zpow_le_zpow_right₀ (by norm_num) (by omega)) hq

/-- With the exponent `ulpExp n d` the scaled quotient is below `2^53`, and at
least `2^52` outside the subnormal range. -/
theorem ulpExp_spec (n d : Nat) (hn : 1 ≤ n) (hd : 1 ≤ d) :
    -1074 ≤ ulpExp n d ∧ (log2 n : ℤ) - log2 d - 53 ≤ ulpExp n d ∧
    ulpExp n d ≤ max ((log2 n : ℤ) - log2 d - 52) (-1074) ∧
    (n : ℚ) / d * (2 : ℚ) ^ (-(ulpExp n d)) < 2 ^ 53 ∧
    (-1074 < ulpExp n d → (2 : ℚ) ^ 52 ≤ (n : ℚ) / d * (2 : ℚ) ^ (-(ulpExp n d))) := by
  obtain ⟨hq1, hq2⟩ := quot_bounds n d hn hd
  have hq0 : (0 : ℚ) ≤ (n : ℚ) / d := by positivity
  have h2 : (0 : ℚ) < 2 := by norm_num
  unfold ulpExp
  simp only []
  generalize he0 : (log2 n : ℤ) - (log2 d : ℤ) - 52 = e0 at *
  have hdpos : 0 < d * 2 ^ e0.toNat := Nat.mul_pos hd (by positivity)
  have hup : (n : ℚ) / d * (2 : ℚ) ^ (-e0) < 2 ^ 53 := by
    have : (2 : ℚ) ^ ((log2 n : ℤ) - log2 d + 1) * (2 : ℚ) ^ (-e0) = 2 ^ 53 := by
      rw [← zpow_add₀ (by norm_num)]
      have : (log2 n : ℤ) - log2 d + 1 + -e0 = 53 := by omega
      rw [this]; norm_num
    rw [← this]
    exact mul_lt_mul_of_pos_right hq2 (zpow_pos h2 _)
  have hlow : (2 : ℚ) ^ 52 < (n : ℚ) / d * (2 : ℚ) ^ (-(e0 - 1)) := by
    have : (2 : ℚ) ^ ((log2 n : ℤ) - log2 d - 1) * (2 : ℚ) ^ (-(e0 - 1)) = 2 ^ 52 := by
      rw [← zpow_add₀ (by norm_num)]
      have : (log2 n : ℤ) - log2 d - 1 + -(e0 - 1) = 52 := by omega
      rw [this]; norm_num
    rw [← this]
    exact mul_lt_mul_of_pos_right hq1 (zpow_pos h2 _)
  have hdbl : (n : ℚ) / d * (2 : ℚ) ^ (-(e0 - 1)) = 2 * ((n : ℚ) / d * (2 : ℚ) ^ (-e0)) := by
    have : -(e0 - 1) = 1 + -e0 := by ring
    rw [this, zpow_add₀ (by norm_num)]
    simp; ring
  by_cases hc : n * 2 ^ (-e0).toNat / (d * 2 ^ e0.toNat) < 2 ^ 52
  · rw [if_pos hc]
    have h' : (n : ℚ) / d * (2 : ℚ) ^ (-e0) < 2 ^ 52 := by
      have := (ratio_lt_iff n d _ e0 hd).1 ((Nat.div_lt_iff_lt_mul hdpos).1 hc)
      exact_mod_cast this
    refine ⟨le_max_right _ _, ?_, ?_, ?_, ?_⟩
    · have := le_max_left (e0 - 1) (-1074); omega
    · apply max_le
      · have := le_max_left e0 (-1074); omega
      · exact le_max_right _ _
    · calc (n : ℚ) / d * (2 : ℚ) ^ (-(max (e0 - 1) (-1074)))
          ≤ (n : ℚ) / d * (2 : ℚ) ^ (-(e0 - 1)) := scale_anti _ hq0 (le_max_left _ _)
        _ = 2 * ((n : ℚ) / d * (2 : ℚ) ^ (-e0)) := hdbl
        _ < 2 ^ 53 := by linarith
    · intro hgt
      have : max (e0 - 1) (-1074) = e0 - 1 := by
        rcases max_choice (e0 - 1) (-1074) with h1 | h1
        · exact h1
        · rw [h1] at hgt; omega
      rw [this]; exact le_of_lt hlow
  · rw [if_neg hc]
    have h' : (2 : ℚ) ^ 52 ≤ (n : ℚ) / d * (2 : ℚ) ^ (-e0) := by
      have h3 : ¬ (n : ℚ) / d * (2 : ℚ) ^ (-e0) < ((2 ^ 52 : Nat) : ℚ) := fun h4 =>
        hc ((Nat.div_lt_iff_lt_mul hdpos).2 ((ratio_lt_iff n d _ e0 hd).2 h4))
      have := not_lt.1 h3; exact_mod_cast this
    refine ⟨le_max_right _ _, ?_, ?_, ?_, ?_⟩
    · have := le_max_left e0 (-1074); omega
    · exact le_refl _
    · exact lt_of_le_of_lt (scale_anti _ hq0 (le_max_left _ _)) hup
    · intro hgt
      have : max e0 (-1074) = e0 := by
        rcases max_choice e0 (-1074) with h1 | h1
        · exact h1
        · rw [h1] at hgt; omega
      rw [this]; exact h'

/-- The floor of the binary logarithm is determined by the two powers around
`n`. -/
theorem log2_unique {n j : Nat} (h1 : 2 ^ j ≤ n) (h2 : n < 2 ^ (j + 1)) : log2 n = j := by
  have hn : 1 ≤ n := le_trans Nat.one_le_two_pow h1
  obtain ⟨h3, h4⟩ := log2_spec n hn
  have a := (Nat.pow_lt_pow_iff_right (by norm_num : 1 < 2)).1 (lt_of_le_of_lt h1 h4)
  have b := (Nat.pow_lt_pow_iff_right (by norm_num : 1 < 2)).1 (lt_of_le_of_lt h3 h2)
  omega

/-- Multiplying by `2^k` adds `k` to the logarithm. -/
theorem log2_mul_pow (m k : Nat) (hm : 1 ≤ m) : log2 (m * 2 ^ k) = log2 m + k := by
  obtain ⟨h3, h4⟩ := log2_spec m hm
  apply log2_unique
  · rw [pow_add]; exact Nat.mul_le_mul_right _ h3
  · have : 2 ^ (log2 m + k + 1) = 2 ^ (log2 m + 1) * 2 ^ k := by ring
    rw [this]; exact Nat.mul_lt_mul_of_pos_right h4 (by positivity)

/-- Rounding to the nearest integer changes the floor by at most one. -/
theorem nearestEven_bounds (num den : Nat) :
    num / den ≤ nearestEven num den ∧ nearestEven num den ≤ num / den + 1 := by
  unfold nearestEven
  simp only []
  split_ifs <;> omega

/-- Zero rounds to zero of the same sign. -/
theorem round_zero (neg : Bool) (d : Nat) : round neg 0 d = fin neg 0 (-1074) := by
  simp [round]

/-- A quotient whose binary magnitude is within the normal range rounds to a
normal value: no overflow, no underflow, significand in `[2^52, 2^53)`. -/
theorem round_fin (neg : Bool) (n d : Nat) (hn : 1 ≤ n) (hd : 1 ≤ d) (lo hi : Int)
    (hlo : lo ≤ (log2 n : ℤ) - log2 d) (hhi : (log2 n : ℤ) - log2 d ≤ hi)
    (h1 : -1020 ≤ lo) (h2 : hi ≤ 1022) :
    ∃ m e, round neg n d = fin neg m e ∧ 2 ^ 52 ≤ m ∧ m < 2 ^ 53 ∧ lo - 53 ≤ e ∧ e ≤ hi - 51 := by
  obtain ⟨he1, he2, he3, he4, he5⟩ := ulpExp_spec n d hn hd
  have hgt : -1074 < ulpExp n d := by omega
  have he6 := he5 hgt
  have he3' : ulpExp n d ≤ hi - 52 := by
    rcases max_choice ((log2 n : ℤ) - log2 d - 52) (-1074) with h | h <;> rw [h] at he3 <;> omega
  have hdpos : 0 < d * 2 ^ (ulpExp n d).toNat := Nat.mul_pos hd (by positivity)
  have hlt : n * 2 ^ (-(ulpExp n d)).toNat < 2 ^ 53 * (d * 2 ^ (ulpExp n d).toNat) := by
    rw [ratio_lt_iff n d _ _ hd]; exact_mod_cast he4
  have hle : 2 ^ 52 * (d * 2 ^ (ulpExp n d).toNat) ≤ n * 2 ^ (-(ulpExp n d)).toNat := by
    rw [ratio_le_iff n d _ _ hd]; exact_mod_cast he6
  have hq1 : n * 2 ^ (-(ulpExp n d)).toNat / (d * 2 ^ (ulpExp n d).toNat) < 2 ^ 53 :=
    (Nat.div_lt_iff_lt_mul hdpos).2 hlt
  have hq2 : 2 ^ 52 ≤ n * 2 ^ (-(ulpExp n d)).toNat / (d * 2 ^ (ulpExp n d).toNat) :=
    (Nat.le_div_iff_mul_le hdpos).2 hle
  obtain ⟨hb1, hb2⟩ := nearestEven_bounds (n * 2 ^ (-(ulpExp n d)).toNat) (d * 2 ^ (ulpExp n d).toNat)
  have hn0 : n ≠ 0 := by omega
  unfold round
  rw [if_neg hn0]
  simp only []
  by_cases hc : nearestEven (n * 2 ^ (-(ulpExp n d)).toNat) (d * 2 ^ (ulpExp n d).toNat) = 2 ^ 53
  · rw [if_pos hc, if_pos hc, if_neg (by omega)]
    exact ⟨_, _, rfl, le_refl _, by norm_num, by omega, by omega⟩
  · rw [if_neg hc, if_neg hc, if_neg (by omega)]
    exact ⟨_, _, rfl, by omega, by omega, by omega, by omega⟩

/-- A normal significand has logarithm 52. -/
theorem log2_normal {m : Nat} (h1 : 2 ^ 52 ≤ m) (h2 : m < 2 ^ 53) : log2 m = 52 :=
  log2_unique h1 h2

/-- Converting a `uint64` gives `+0` or a normal value. -/
theorem ofNat_inRange (u : Nat) (hu : u < 2 ^ 64) : InRange (ofNat u) (-53) 12 := by
  unfold ofNat
  by_cases h0 : u = 0
  · subst h0; rw [round_zero]; exact ⟨rfl, Or.inl ⟨rfl, rfl⟩⟩
  · have h1 : 1 ≤ u := by omega
    have hl : log2 u < 64 := by
      have := (log2_spec u h1).1
      exact (Nat.pow_lt_pow_iff_right (by norm_num : 1 < 2)).1 (lt_of_le_of_lt this hu)
    have hl1 : log2 1 = 0 := by decide
    obtain ⟨m, e, hr, hm1, hm2, he1, he2⟩ :=
      round_fin false u 1 h1 le_rfl 0 63 (by rw [hl1]; omega) (by rw [hl1]; omega)
        (by norm_num) (by norm_num)
    rw [hr]
    exact ⟨rfl, Or.inr ⟨hm1, hm2, by omega, by omega⟩⟩

/-- Converting a non-zero `uint64` gives a non-zero value. -/
theorem ofNat_isZero (u : Nat) (h1 : 1 ≤ u) (hu : u < 2 ^ 64) : (ofNat u).isZero = false := by
  unfold ofNat
  have hl : log2 u < 64 := by
    have := (log2_spec u h1).1
    exact (Nat.pow_lt_pow_iff_right (by norm_num : 1 < 2)).1 (lt_of_le_of_lt this hu)
  have hl1 : log2 1 = 0 := by decide
  obtain ⟨m, e, hr, hm1, hm2, he1, he2⟩ :=
    round_fin false u 1 h1 le_rfl 0 63 (by rw [hl1]; omega) (by rw [hl1]; omega)
      (by norm_num) (by norm_num)
  rw [hr]
  have : m ≠ 0 := by
    intro h; rw [h] at hm1; norm_num at hm1
  simp [isZero, this]

/-- The quotient of two values in range by a non-zero divisor is in range. -/
theorem div_inRange (x y : Float64) (lx hx ly hy : Int) (hxr : InRange x lx hx)
    (hyr : InRange y ly hy) (hy0 : y.isZero = false)
    (h1 : -1020 ≤ lx - hy) (h2 : hx - ly ≤ 1022) :
    InRange (div x y) (lx - hy - 53) (hx - ly - 51) := by
  cases x with
  | nan => exact hxr.elim
  | inf s => exact hxr.elim
  | fin s m e =>
    cases y with
    | nan => exact hyr.elim
    | inf t => exact hyr.elim
    | fin t k f =>
      have hk0 : k ≠ 0 := by simpa [isZero] using hy0
      obtain ⟨ht, hyr⟩ := hyr
      obtain ⟨hs, hxr⟩ := hxr
      subst ht hs
      obtain ⟨hk1, hk2, hf1, hf2⟩ := hyr.resolve_left (fun h => hk0 h.1)
      simp only [div, if_neg hk0, Bool.xor_false]
      rcases hxr with ⟨hm0, _⟩ | ⟨hm1, hm2, he1, he2⟩
      · subst hm0; rw [Nat.zero_mul, round_zero]; exact ⟨rfl, Or.inl ⟨rfl, rfl⟩⟩
      · have hm : 1 ≤ m := le_trans Nat.one_le_two_pow hm1
        have hk : 1 ≤ k := le_trans Nat.one_le_two_pow hk1
        have ln : log2 (m * 2 ^ (e - f).toNat) = 52 + (e - f).toNat := by
          rw [log2_mul_pow m _ hm, log2_normal hm1 hm2]
        have ld : log2 (k * 2 ^ (f - e).toNat) = 52 + (f - e).toNat := by
          rw [log2_mul_pow k _ hk, log2_normal hk1 hk2]
        obtain ⟨m', e', hr, hm1', hm2', he1', he2'⟩ :=
          round_fin false (m * 2 ^ (e - f).toNat) (k * 2 ^ (f - e).toNat)
            (Nat.mul_pos hm (by positivity)) (Nat.mul_pos hk (by positivity))
            (lx - hy) (hx - ly) (by rw [ln, ld]; omega) (by rw [ln, ld]; omega) h1 h2
        rw [hr]
        exact ⟨rfl, Or.inr ⟨hm1', hm2', he1', he2'⟩⟩

/-- The product of two values in range is in range. -/
theorem mul_inRange (x y : Float64) (lx hx ly hy : Int) (hxr : InRange x lx hx)
    (hyr : InRange y ly hy)
    (h1 : -1020 ≤ lx + ly + 104) (h2 : hx + hy + 105 ≤ 1022) :
    InRange (mul x y) (lx + ly + 51) (hx + hy + 54) := by
  cases x with
  | nan => exact hxr.elim
  | inf s => exact hxr.elim
  | fin s m e =>
    cases y with
    | nan => exact hyr.elim
    | inf t => exact hyr.elim
    | fin t k f =>
      obtain ⟨ht, hyr⟩ := hyr
      obtain ⟨hs, hxr⟩ := hxr
      subst ht hs
      simp only [mul, Bool.xor_false]
      rcases hxr with ⟨hm0, _⟩ | ⟨hm1, hm2, he1, he2⟩
      · subst hm0; rw [Nat.zero_mul, Nat.zero_mul, round_zero]; exact ⟨rfl, Or.inl ⟨rfl, rfl⟩⟩
      rcases hyr with ⟨hk0, _⟩ | ⟨hk1, hk2, hf1, hf2⟩
      · subst hk0; rw [Nat.mul_zero, Nat.zero_mul, round_zero]; exact ⟨rfl, Or.inl ⟨rfl, rfl⟩⟩
      have hmk1 : 2 ^ 104 ≤ m * k := by
        have := Nat.mul_le_mul hm1 hk1
        calc 2 ^ 104 = 2 ^ 52 * 2 ^ 52 := by norm_num
          _ ≤ m * k := this
      have hmk2 : m * k < 2 ^ 106 := by
        have := Nat.mul_lt_mul'' hm2 hk2
        calc m * k < 2 ^ 53 * 2 ^ 53 := this
          _ = 2 ^ 106 := by norm_num
      have hmk : 1 ≤ m * k := le_trans Nat.one_le_two_pow hmk1
      have hl1 : 104 ≤ log2 (m * k) := by
        have := (log2_spec _ hmk).2
        have := (Nat.pow_lt_pow_iff_right (by norm_num : 1 < 2)).1 (lt_of_le_of_lt hmk1 this)
        omega
      have hl2 : log2 (m * k) < 106 := by
        have := (log2_spec _ hmk).1
        exact (Nat.pow_lt_pow_iff_right (by norm_num : 1 < 2)).1 (lt_of_le_of_lt this hmk2)
      have ln : log2 (m * k * 2 ^ (e + f).toNat) = log2 (m * k) + (e + f).toNat :=
        log2_mul_pow _ _ hmk
      have ld : log2 (2 ^ (-(e + f)).toNat) = (-(e + f)).toNat := by
        have := log2_mul_pow 1 (-(e + f)).toNat le_rfl
        rw [Nat.one_mul] at this
        rw [this]
        have : log2 1 = 0 := by decide
        omega
      obtain ⟨m', e', hr, hm1', hm2', he1', he2'⟩ :=
        round_fin false (m * k * 2 ^ (e + f).toNat) (2 ^ (-(e + f)).toNat)
          (Nat.mul_pos hmk (by positivity)) Nat.one_le_two_pow
          (lx + ly + 104) (hx + hy + 105) (by rw [ln, ld]; omega) (by rw [ln, ld]; omega) h1 h2
      rw [hr]
      exact ⟨rfl, Or.inr ⟨hm1', hm2', by omega, by omega⟩⟩

/-- A value in range is finite. -/
theorem isFinite_of_inRange {x : Float64} {lo hi : Int} (h : InRange x lo hi) :
    x.isFinite = true := by
  cases x with
  | nan => exact h.elim
  | inf s => exact h.elim
  | fin s m e => rfl

end Float64

/-- A `uint64` difference is a `uint64` value. -/
theorem sub64_lt (a b : Nat) : sub64 a b < 2 ^ 64 := by
  unfold sub64 uint64Mod
  exact Nat.mod_lt _ (by norm_num)

/-- The divisor of `collectCPU` is a non-zero `uint64` value. -/
theorem cpuTotal_pos (before after : cpu.Stats) :
    1 ≤ cpuTotal before after ∧ cpuTotal before after < 2 ^ 64 := by
  unfold cpuTotal
  simp only []
  have := sub64_lt after.Total before.Total
  split_ifs with h
  · constructor <;> norm_num
  · omega

/-- A CPU share is `+0` or a normal non-negative value. -/
theorem cpuPercent_inRange (a b total : Nat) (h1 : 1 ≤ total) (h2 : total < 2 ^ 64) :
    Float64.InRange (cpuPercent a b total) (-120) 80 := by
  unfold cpuPercent
  have hx := Float64.ofNat_inRange (sub64 a b) (sub64_lt a b)
  have hy := Float64.ofNat_inRange total h2
  have hy0 := Float64.ofNat_isZero total h1 h2
  have hd := Float64.div_inRange _ _ _ _ _ _ hx hy hy0 (by norm_num) (by norm_num)
  have hc := Float64.ofNat_inRange 100 (by norm_num)
  have hm := Float64.mul_inRange _ _ _ _ _ _ hd hc (by norm_num) (by norm_num)
  norm_num at hm
  exact hm

/-! ## The loop of collectNetwork -/

theorem networkStep_fst (p : Platform) (pv : GoMap NetworkSample) (now : Time)
    (acc : List NetworkMetrics × GoMap NetworkSample) (n : network.Stats) :
    (networkStep p pv now acc n).1 = acc.1 ++ stepEntries p pv now n := by
  unfold stepEntries networkStep
  by_cases h : n.Name = lo
  · simp [h]
  · simp only [if_neg h]
    cases mapGet pv n.Name with
    | none => simp
    | some prev =>
      simp only []
      split_ifs <;> simp

/-- The loop appends the entries of every record, in order. -/
theorem foldl_networkStep_fst (p : Platform) (pv : GoMap NetworkSample) (now : Time)
    (ns : List network.Stats) : ∀ acc : List NetworkMetrics × GoMap NetworkSample,
    (ns.foldl (networkStep p pv now) acc).1 = acc.1 ++ ns.flatMap (stepEntries p pv now) := by
  induction ns with
  | nil => intro acc; simp
  | cons n ns ih =>
    intro acc
    rw [List.foldl_cons, ih, networkStep_fst, List.flatMap_cons, List.append_assoc]

/-- The loopback record appends nothing. -/
theorem stepEntries_lo (p : Platform) (pv : GoMap NetworkSample) (now : Time)
    (n : network.Stats) (h : n.Name = lo) : stepEntries p pv now n = [] := by
  simp [stepEntries, networkStep, h]

/-- A record without stored sample appends nothing. -/
theorem stepEntries_none (p : Platform) (pv : GoMap NetworkSample) (now : Time)
    (n : network.Stats) (h : mapGet pv n.Name = none) : stepEntries p pv now n = [] := by
  unfold stepEntries networkStep
  by_cases hl : n.Name = lo
  · simp [hl]
  · simp [hl, h]

/-- A record with a stored sample appends its rate entry when the elapsed
seconds are positive. -/
theorem stepEntries_some (p : Platform) (pv : GoMap NetworkSample) (now : Time)
    (n : network.Stats) (prev : NetworkSample) (hl : n.Name ≠ lo)
    (h : mapGet pv n.Name = some prev) :
    stepEntries p pv now n =
      if Float64.lt fzero (Duration.Seconds (now.Sub prev.time)) = true
      then [rateEntry p n prev (Duration.Seconds (now.Sub prev.time))] else [] := by
  unfold stepEntries networkStep
  simp [hl, h]

/-- An appended entry carries the name of its record, which is not the loopback
and has a stored sample. -/
theorem stepEntries_interface (p : Platform) (pv : GoMap NetworkSample) (now : Time)
    (n : network.Stats) (e : NetworkMetrics) (he : e ∈ stepEntries p pv now n) :
    e.Interface = n.Name ∧ n.Name ≠ lo ∧ ∃ prev, mapGet pv n.Name = some prev := by
  by_cases hl : n.Name = lo
  · rw [stepEntries_lo p pv now n hl] at he; simp at he
  · cases hm : mapGet pv n.Name with
    | none => rw [stepEntries_none p pv now n hm] at he; simp at he
    | some prev =>
      rw [stepEntries_some p pv now n prev hl hm] at he
      split_ifs at he
      · simp at he; subst he; exact ⟨rfl, hl, prev, rfl⟩
      · simp at he

/-- The entries named `name` are those appended for the records named `name`. -/
theorem filter_flatMap_stepEntries (p : Platform) (pv : GoMap NetworkSample) (now : Time)
    (name : GoString) (ns : List network.Stats) :
    (ns.flatMap (stepEntries p pv now)).filter (fun e => decide (e.Interface = name)) =
      (ns.filter (fun n => decide (n.Name = name))).flatMap (stepEntries p pv now) := by
  induction ns with
  | nil => simp
  | cons n ns ih =>
    rw [List.flatMap_cons, List.filter_append, ih]
    by_cases h : n.Name = name
    · rw [List.filter_cons_of_pos (by simpa using h), List.flatMap_cons]
      congr 1
      apply List.filter_eq_self.2
      intro e he
      have := (stepEntries_interface p pv now n e he).1
      simp [this, h]
    · rw [List.filter_cons_of_neg (by simpa using h)]
      have : (stepEntries p pv now n).filter (fun e => decide (e.Interface = name)) = [] := by
        apply List.filter_eq_nil_iff.2
        intro e he
        have := (stepEntries_interface p pv now n e he).1
        simp [this, h]
      rw [this, List.nil_append]

/-! ## The shape of a successful Collect -/

theorem Collect_ok (p : Platform) (c : Collector) (t : Tick) (b a : cpu.Stats)
    (m : memory.Stats) (ns : List network.Stats)
    (h1 : t.cpuBefore = .ok b) (h2 : t.cpuAfter = .ok a) (h3 : t.mem = .ok m)
    (h4 : t.net = .ok ns) :
    Collect p c t =
      ((some
          { Hostname := c.hostname
            Timestamp := t.now.UnixMilli
            OS := p.GOOS
            OSVersion := []
            Architecture := p.GOARCH
            CPU :=
              { User := cpuPercent a.User b.User (cpuTotal b a)
                System := cpuPercent a.System b.System (cpuTotal b a)
                Idle := cpuPercent a.Idle b.Idle (cpuTotal b a)
                IOWait := Float64.ofNat 0
                Steal := Float64.ofNat 0
                Nice := cpuPercent a.Nice b.Nice (cpuTotal b a) }
            Memory :=
              { Total := m.Total
                Used := m.Used
                Free := m.Free
                Available := m.Free
                Cached := m.Cached
                Buffers := 0
                SwapTotal := m.SwapTotal
                SwapUsed := m.SwapUsed
                SwapFree := m.SwapFree }
            Disks :=
              [{ Device := ascii "/"
                 MountPoint := ascii "/"
                 Total := 0
                 Used := 0
                 Free := 0
                 InodesTotal := 0
                 InodesUsed := 0
                 InodesFree := 0
                 ReadBytes := 0
                 WriteBytes := 0 }]
            Networks := ns.flatMap (stepEntries p c.prevNetwork t.netNow) },
        none),
       { c with prevNetwork := (ns.foldl (networkStep p c.prevNetwork t.netNow) ([], [])).2 }) := by
  unfold Collect
  simp only [h1, h2, h3, h4, collectCPU, collectMemory, collectNetwork, collectDisk,
    foldl_networkStep_fst, List.nil_append]

/-- When `Collect` returns a snapshot the four reads succeeded. -/
theorem Collect_some_reads (p : Platform) (c : Collector) (t : Tick) (s : SystemMetrics)
    (h : (Collect p c t).1.1 = some s) :
    ∃ b a m ns, t.cpuBefore = .ok b ∧ t.cpuAfter = .ok a ∧ t.mem = .ok m ∧ t.net = .ok ns := by
  unfold Collect at h
  cases h1 : t.cpuBefore with
  | error e => simp [h1, collectCPU] at h
  | ok b =>
    cases h2 : t.cpuAfter with
    | error e => simp [h1, h2, collectCPU] at h
    | ok a =>
      cases h3 : t.mem with
      | error e => simp [h1, h2, h3, collectCPU, collectMemory] at h
      | ok m =>
        cases h4 : t.net with
        | error e => simp [h1, h2, h3, h4, collectCPU, collectMemory, collectNetwork] at h
        | ok ns => exact ⟨b, a, m, ns, rfl, rfl, rfl, rfl⟩

/-- A `Collect` that returns no snapshot leaves the collector as it was. -/
theorem Collect_fail_state (p : Platform) (c : Collector) (t : Tick)
    (h : (Collect p c t).1.1 = none) : (Collect p c t).2 = c := by
  unfold Collect at h ⊢
  cases h1 : t.cpuBefore with
  | error e => simp [collectCPU]
  | ok b =>
    cases h2 : t.cpuAfter with
    | error e => simp [collectCPU]
    | ok a =>
      cases h3 : t.mem with
      | error e => simp [collectCPU, collectMemory]
      | ok m =>
        cases h4 : t.net with
        | error e => simp [collectCPU, collectMemory, collectNetwork]
        | ok ns => simp [h1, h2, h3, h4, collectCPU, collectMemory, collectNetwork, collectDisk] at h

/-! ## The stored samples -/

theorem mapGet_filter_ne {α : Type} (m : GoMap α) (k k' : GoString) (h : k' ≠ k) :
    mapGet (m.filter (fun p => decide (p.1 ≠ k))) k' = mapGet m k' := by
  induction m with
  | nil => rfl
  | cons x xs ih =>
    obtain ⟨a, v⟩ := x
    by_cases ha : a = k
    · subst ha
      rw [List.filter_cons_of_neg (by simp)]
      rw [ih]
      simp [mapGet, h]
    · rw [List.filter_cons_of_pos (by simpa using ha)]
      simp only [mapGet, ih]

/-- Lookup after an assignment. -/
theorem mapGet_mapSet {α : Type} (m : GoMap α) (k k' : GoString) (v : α) :
    mapGet (mapSet m k v) k' = if k' = k then some v else mapGet m k' := by
  unfold mapSet
  by_cases h : k' = k
  · simp [mapGet, h]
  · simp only [mapGet, if_neg h]
    exact mapGet_filter_ne m k k' h

/-- One iteration stores the sample of a non-loopback record. -/
theorem networkStep_snd (p : Platform) (pv : GoMap NetworkSample) (now : Time)
    (acc : List NetworkMetrics × GoMap NetworkSample) (n : network.Stats) :
    (networkStep p pv now acc n).2 =
      if n.Name = lo then acc.2 else mapSet acc.2 n.Name (sampleOf now n) := by
  unfold networkStep sampleOf
  split_ifs <;> rfl

/-- After the loop a name is bound to the sample of the last non-loopback
record of that name, if any. -/
theorem foldl_networkStep_snd (p : Platform) (pv : GoMap NetworkSample) (now : Time)
    (name : GoString) (ns : List network.Stats) :
    ∀ acc : List NetworkMetrics × GoMap NetworkSample,
    mapGet (ns.foldl (networkStep p pv now) acc).2 name =
      match ns.reverse.find? (fun n => decide (n.Name = name ∧ n.Name ≠ lo)) with
      | some n => some (sampleOf now n)
      | none => mapGet acc.2 name := by
  induction ns with
  | nil => intro acc; rfl
  | cons n ns ih =>
    intro acc
    rw [List.foldl_cons, ih, List.reverse_cons, List.find?_append]
    cases hf : ns.reverse.find? (fun n => decide (n.Name = name ∧ n.Name ≠ lo)) with
    | some r => rfl
    | none =>
      rw [networkStep_snd]
      by_cases hl : n.Name = lo
      · simp [hl]
      · by_cases hn : n.Name = name
        · subst hn
          simp [hl, mapGet_mapSet]
        · have : name ≠ n.Name := fun h => hn h.symm
          simp [hl, hn, mapGet_mapSet, this]

/-- The loopback name, and a name the read does not list, are not bound after
the loop. -/
theorem stored_none (p : Platform) (pv : GoMap NetworkSample) (now : Time)
    (name : GoString) (ns : List network.Stats)
    (h : name = lo ∨ ∀ n ∈ ns, n.Name ≠ name) :
    mapGet (ns.foldl (networkStep p pv now) ([], [])).2 name = none := by
  rw [foldl_networkStep_snd]
  have : ns.reverse.find? (fun n => decide (n.Name = name ∧ n.Name ≠ lo)) = none := by
    apply List.find?_eq_none.2
    intro n hn
    have hn' : n ∈ ns := List.mem_reverse.1 hn
    rcases h with h | h
    · subst h; simp
    · simp [h n hn']
  rw [this]; rfl

/-- A binding after the loop comes from a record of the read. -/
theorem stored_some (p : Platform) (pv : GoMap NetworkSample) (now : Time)
    (name : GoString) (ns : List network.Stats) (s : NetworkSample)
    (h : mapGet (ns.foldl (networkStep p pv now) ([], [])).2 name = some s) :
    name ≠ lo ∧ ∃ n ∈ ns, n.Name = name ∧ s = sampleOf now n := by
  rw [foldl_networkStep_snd] at h
  cases hf : ns.reverse.find? (fun n => decide (n.Name = name ∧ n.Name ≠ lo)) with
  | none => rw [hf] at h; simp [mapGet] at h
  | some r =>
    rw [hf] at h
    have hp := List.find?_some hf
    have hm := List.mem_reverse.1 (List.mem_of_find?_eq_some hf)
    simp at hp h
    refine ⟨?_, r, hm, hp.1, h.symm⟩
    rw [← hp.1]; exact hp.2

/-- A non-loopback name the read lists once is bound to the sample of its
record. -/
theorem stored_unique (p : Platform) (pv : GoMap NetworkSample) (now : Time)
    (ns : List network.Stats) (n : network.Stats) (hn : n ∈ ns) (hl : n.Name ≠ lo)
    (hu : ∀ r ∈ ns, r.Name = n.Name → r = n) :
    mapGet (ns.foldl (networkStep p pv now) ([], [])).2 n.Name = some (sampleOf now n) := by
  cases h : mapGet (ns.foldl (networkStep p pv now) ([], [])).2 n.Name with
  | none =>
    rw [foldl_networkStep_snd] at h
    cases hf : ns.reverse.find? (fun r => decide (r.Name = n.Name ∧ r.Name ≠ lo)) with
    | none =>
      have := List.find?_eq_none.1 hf n (List.mem_reverse.2 hn)
      simp [hl] at this
    | some r => rw [hf] at h; simp at h
  | some s =>
    obtain ⟨_, r, hr, hrn, hs⟩ := stored_some p pv now n.Name ns s h
    rw [hs, hu r hr hrn]

/-- A CPU share computed by `collectCPU` is finite. -/
theorem cpuPercent_isFinite (a b : Nat) (before after : cpu.Stats) :
    (cpuPercent a b (cpuTotal before after)).isFinite = true :=
  Float64.isFinite_of_inRange
    (cpuPercent_inRange a b _ (cpuTotal_pos before after).1 (cpuTotal_pos before after).2)

/-- A run of failed calls leaves the collector as it was. -/
theorem collectAll_failed_state (p : Platform) (ts : List Tick) : ∀ c : Collector,
    (∀ r ∈ (collectAll p c ts).1, r.1 = none) → (collectAll p c ts).2 = c := by
  induction ts with
  | nil => intro c _; rfl
  | cons t ts ih =>
    intro c h
    simp only [collectAll] at h ⊢
    have h0 : (Collect p c t).1.1 = none := h _ (List.mem_cons_self _ _)
    have hc := Collect_fail_state p c t h0
    rw [hc] at h ⊢
    exact ih c (fun r hr => h r (List.mem_cons_of_mem _ hr))

/-- The entries and the stored samples of a successful `Collect`. -/
theorem Collect_networks (p : Platform) (c : Collector) (t : Tick) (s : SystemMetrics)
    (h : (Collect p c t).1.1 = some s) :
    ∃ ns, t.net = .ok ns ∧ s.Networks = ns.flatMap (stepEntries p c.prevNetwork t.netNow) ∧
      (Collect p c t).2.prevNetwork =
        (ns.foldl (networkStep p c.prevNetwork t.netNow) ([], [])).2 := by
  obtain ⟨b, a, m, ns, h1, h2, h3, h4⟩ := Collect_some_reads p c t s h
  rw [Collect_ok p c t b a m ns h1 h2 h3 h4] at h ⊢
  simp only [Option.some.injEq] at h
  exact ⟨ns, h4, by rw [← h], rfl⟩

/-- An assignment keeps the keys distinct. -/
theorem mapSet_keys_nodup {α : Type} (m : GoMap α) (k : GoString) (v : α)
    (h : (m.map Prod.fst).Nodup) : ((mapSet m k v).map Prod.fst).Nodup := by
  unfold mapSet
  rw [List.map_cons, List.nodup_cons]
  constructor
  · intro hk
    obtain ⟨x, hx, hxk⟩ := List.mem_map.1 hk
    have := (List.mem_filter.1 hx).2
    simp at this
    exact this hxk
  · exact List.Nodup.sublist (List.Sublist.map _ (List.filter_sublist _)) h

/-- The loop keeps the keys distinct. -/
theorem foldl_networkStep_nodup (p : Platform) (pv : GoMap NetworkSample) (now : Time)
    (ns : List network.Stats) : ∀ acc : List NetworkMetrics × GoMap NetworkSample,
    (acc.2.map Prod.fst).Nodup →
    ((ns.foldl (networkStep p pv now) acc).2.map Prod.fst).Nodup := by
  induction ns with
  | nil => intro acc h; exact h
  | cons n ns ih =>
    intro acc h
    rw [List.foldl_cons]
    apply ih
    rw [networkStep_snd]
    split_ifs
    · exact h
    · exact mapSet_keys_nodup _ _ _ h

/-- A lookup succeeds exactly for the keys of the map. -/
theorem mapGet_isSome_iff {α : Type} (m : GoMap α) (k : GoString) :
    (mapGet m k).isSome = true ↔ k ∈ m.map Prod.fst := by
  induction m with
  | nil => simp [mapGet]
  | cons x xs ih =>
    obtain ⟨a, v⟩ := x
    by_cases h : k = a
    · simp [mapGet, h]
    · simp [mapGet, h, ih]

/-- `Collect` never binds the loopback name. -/
theorem Collect_keeps_no_lo (p : Platform) (c : Collector) (t : Tick)
    (h : mapGet c.prevNetwork lo = none) : mapGet (Collect p c t).2.prevNetwork lo = none := by
  cases hs : (Collect p c t).1.1 with
  | none => rw [Collect_fail_state p c t hs]; exact h
  | some s =>
    obtain ⟨ns, _, _, hst⟩ := Collect_networks p c t s hs
    rw [hst]
    exact stored_none p _ _ lo ns (Or.inl rfl)

/-- A run of calls neither emits an entry for the loopback nor binds its name. -/
theorem collectAll_no_lo (p : Platform) (ts : List Tick) : ∀ c : Collector,
    mapGet c.prevNetwork lo = none →
    (∀ r ∈ (collectAll p c ts).1, ∀ s, r.1 = some s → ∀ e ∈ s.Networks, e.Interface ≠ lo) ∧
    mapGet (collectAll p c ts).2.prevNetwork lo = none := by
  induction ts with
  | nil => intro c h; exact ⟨fun r hr => by simp [collectAll] at hr, h⟩
  | cons t ts ih =>
    intro c h
    obtain ⟨ih1, ih2⟩ := ih (Collect p c t).2 (Collect_keeps_no_lo p c t h)
    simp only [collectAll]
    refine ⟨?_, ih2⟩
    intro r hr s hs e he
    rcases List.mem_cons.1 hr with hr | hr
    · subst hr
      obtain ⟨ns, _, hnet, _⟩ := Collect_networks p c t s hs
      rw [hnet] at he
      obtain ⟨n, _, hen⟩ := List.mem_flatMap.1 he
      obtain ⟨hi, hl, _⟩ := stepEntries_interface p _ _ n e hen
      rw [hi]; exact hl
    · exact ih1 r hr s hs e he

/-! ## The values of a snapshot -/

theorem toUint64_lt (impl : Float64 → Nat) (x : Float64) : Float64.toUint64 impl x < 2 ^ 64 := by
  have hmod : ∀ n : Nat, n % uint64Mod < 2 ^ 64 := fun n => Nat.mod_lt _ (by norm_num [uint64Mod])
  cases x with
  | nan => exact hmod _
  | inf s => exact hmod _
  | fin s m e =>
    simp only [Float64.toUint64]
    split_ifs with h1 h2
    · norm_num
    · exact h2.2
    · exact hmod _

/-- The numbers of a rate entry are `uint64` values. -/
theorem rateEntry_wire (p : Platform) (n : network.Stats) (prev : NetworkSample)
    (td : Float64) : (rateEntry p n prev td).Wire := by
  unfold NetworkMetrics.Wire rateEntry
  exact ⟨toUint64_lt _ _, toUint64_lt _ _, by norm_num, by norm_num, by norm_num, by norm_num,
    by norm_num, by norm_num⟩

/-- The numbers of an appended entry are `uint64` values. -/
theorem stepEntries_wire (p : Platform) (pv : GoMap NetworkSample) (now : Time)
    (n : network.Stats) (e : NetworkMetrics) (he : e ∈ stepEntries p pv now n) : e.Wire := by
  by_cases hl : n.Name = lo
  · rw [stepEntries_lo p pv now n hl] at he; simp at he
  · cases hm : mapGet pv n.Name with
    | none => rw [stepEntries_none p pv now n hm] at he; simp at he
    | some prev =>
      rw [stepEntries_some p pv now n prev hl hm] at he
      split_ifs at he
      · simp at he; subst he; exact rateEntry_wire p n prev _
      · simp at he

/-- A zero in range is `+0`. -/
theorem inRange_zero {x : Float64} {lo hi : Int} (h : Float64.InRange x lo hi)
    (hz : x.isZero = true) : x = fzero := by
  cases x with
  | nan => exact h.elim
  | inf s => exact h.elim
  | fin s m e =>
    obtain ⟨hs, h⟩ := h
    have hm : m = 0 := by simpa [Float64.isZero] using hz
    rcases h with ⟨_, he⟩ | ⟨h1, _⟩
    · subst hs hm he; rfl
    · rw [hm] at h1; norm_num at h1

/-- A CPU share that is zero is `+0`. -/
theorem cpuPercent_zero (a b : Nat) (before after : cpu.Stats)
    (hz : (cpuPercent a b (cpuTotal before after)).isZero = true) :
    cpuPercent a b (cpuTotal before after) = fzero :=
  inRange_zero
    (cpuPercent_inRange a b _ (cpuTotal_pos before after).1 (cpuTotal_pos before after).2) hz

/-- The numbers of a snapshot returned by `Collect` are values of their Go
types when the timestamp and the memory read are. -/
theorem Collect_wire (p : Platform) (c : Collector) (t : Tick) (s : SystemMetrics)
    (hs : (Collect p c t).1.1 = some s)
    (hts : -(2 ^ 63) ≤ t.now.UnixMilli ∧ t.now.UnixMilli < 2 ^ 63)
    (hmem : ∀ m, t.mem = .ok m → m.Wire) : s.Wire := by
  obtain ⟨b, a, m, ns, h1, h2, h3, h4⟩ := Collect_some_reads p c t s hs
  rw [Collect_ok p c t b a m ns h1 h2 h3 h4] at hs
  simp only [Option.some.injEq] at hs
  subst hs
  obtain ⟨m1, m2, m3, m4, m5, m6, m7⟩ := hmem m h3
  refine ⟨hts, ⟨⟨?_, ?_, ?_, rfl, rfl, ?_⟩, fun _ => rfl, fun _ => rfl, ?_⟩, ?_, ?_, ?_⟩
  · exact cpuPercent_isFinite _ _ b a
  · exact cpuPercent_isFinite _ _ b a
  · exact cpuPercent_isFinite _ _ b a
  · exact cpuPercent_isFinite _ _ b a
  · exact cpuPercent_zero _ _ b a
  · exact ⟨m1, m2, m4, m4, m3, by norm_num, m5, m6, m7⟩
  · intro d hd
    simp only [List.mem_singleton] at hd
    subst hd
    norm_num
  · intro e he
    obtain ⟨n, _, hen⟩ := List.mem_flatMap.1 he
    exact stepEntries_wire p _ _ n e hen

/-- The strings `Collect` puts in a snapshot. -/
theorem Collect_strings (p : Platform) (c : Collector) (t : Tick) (s : SystemMetrics)
    (hs : (Collect p c t).1.1 = some s) :
    s.Hostname = c.hostname ∧ s.OS = p.GOOS ∧ s.OSVersion = [] ∧ s.Architecture = p.GOARCH ∧
    s.Disks.map (fun d => (d.Device, d.MountPoint)) = [(ascii "/", ascii "/")] := by
  obtain ⟨b, a, m, ns, h1, h2, h3, h4⟩ := Collect_some_reads p c t s hs
  rw [Collect_ok p c t b a m ns h1 h2 h3 h4] at hs
  simp only [Option.some.injEq] at hs
  subst hs
  exact ⟨rfl, rfl, rfl, rfl, rfl⟩

/-! ## encoding/json: reading back what was written -/

theorem ascii_inj (a b : String) : ascii a = ascii b ↔ a = b := by
  unfold ascii
  constructor
  · intro h
    have hinj : Function.Injective Char.toNat := by
      intro x y hxy
      exact Char.ext (UInt32.ext (by simpa [Char.toNat, UInt32.toNat] using hxy))
    have h1 : a.toList = b.toList := List.map_injective_iff.2 hinj h
    exact String.ext h1
  · intro h; rw [h]

/-- Lookup in an object without members. -/
theorem objGet_nil (k : GoString) : objGet [] k = none := rfl

/-- Lookup in an object with a first member. -/
theorem objGet_cons (k k' : GoString) (v : JValue) (rest : List (GoString × JValue)) :
    objGet ((k', v) :: rest) k = (objGet rest k).or (if k = k' then some v else none) := by
  simp only [objGet]
  cases objGet rest k <;> rfl

/-- Lookup in two groups of members: the later group wins. -/
theorem objGet_append (ms1 ms2 : List (GoString × JValue)) (k : GoString) :
    objGet (ms1 ++ ms2) k = (objGet ms2 k).or (objGet ms1 k) := by
  induction ms1 with
  | nil =>
    simp only [List.nil_append]
    cases objGet ms2 k <;> rfl
  | cons x xs ih =>
    obtain ⟨a, v⟩ := x
    rw [List.cons_append, objGet_cons, objGet_cons, ih]
    cases objGet ms2 k <;> cases objGet xs k <;> rfl

/-- Fallback of an optional member. -/
theorem or_ite (c : Prop) [Decidable c] (x : JValue) (o : Option JValue) :
    (if c then none else some x : Option JValue).or o = if c then o else some x := by
  split_ifs <;> rfl

/-- Lookup in an optional integer member. -/
theorem objGet_juintOmit (k' : String) (n : Nat) (k : GoString) :
    objGet (juintOmit k' n) k =
      if n = 0 then none else if k = ascii k' then some (.int n) else none := by
  unfold juintOmit
  split_ifs <;> simp [objGet, *]

/-- Lookup in an optional string member. -/
theorem objGet_jstrOmit (k' : String) (s : GoString) (k : GoString) :
    objGet (jstrOmit k' s) k =
      if s = [] then none else if k = ascii k' then some (jstr s) else none := by
  unfold jstrOmit
  split_ifs <;> simp [objGet, *]

/-- Lookup in an optional array member. -/
theorem objGet_jarrOmit (k' : String) (items : List JValue) (k : GoString) :
    objGet (jarrOmit k' items) k =
      if items.isEmpty = true then none
      else if k = ascii k' then some (.arr items) else none := by
  unfold jarrOmit
  cases items with
  | nil => simp [objGet]
  | cons x xs =>
    simp only [List.isEmpty_cons, Bool.false_eq_true, if_false]
    split_ifs <;> simp [objGet, *]

/-- The members `jfloatOmit` writes for a finite value. -/
theorem jfloatOmit_finite (k : String) (f : Float64) (h : f.isFinite = true) :
    jfloatOmit k f = .ok (if f.isZero = true then [] else [(ascii k, .float f)]) := by
  unfold jfloatOmit
  cases f with
  | nan => simp [Float64.isFinite] at h
  | inf s => simp [Float64.isFinite] at h
  | fin s m e => split_ifs <;> rfl

/-- A finite value is written as a number. -/
theorem jfloat_finite (f : Float64) (h : f.isFinite = true) : jfloat f = .ok (.float f) := by
  cases f with
  | nan => simp [Float64.isFinite] at h
  | inf s => simp [Float64.isFinite] at h
  | fin s m e => rfl

/-- Lookup in an optional number member. -/
theorem objGet_jfloatMembers (k' : String) (f : Float64) (k : GoString) :
    objGet (if f.isZero = true then [] else [(ascii k', JValue.float f)]) k =
      if f.isZero = true then none else if k = ascii k' then some (.float f) else none := by
  split_ifs <;> simp [objGet, *]

/-- An absent integer member reads as 0. -/
theorem getUint_absent (ms : List (GoString × JValue)) (k : String)
    (h : objGet ms (ascii k) = none) : getUint ms k = some 0 := by
  simp only [getUint, h]

/-- An integer member reads as its value. -/
theorem getUint_present (ms : List (GoString × JValue)) (k : String) (n : Nat)
    (hn : n < 2 ^ 64) (h : objGet ms (ascii k) = some (.int n)) : getUint ms k = some n := by
  simp only [getUint, h]
  have : (0 : Int) ≤ n ∧ (n : Int) < 2 ^ 64 := ⟨by omega, by exact_mod_cast hn⟩
  simp only [this, and_self, if_true, Int.toNat_ofNat]

/-- An optional integer member reads as the value written. -/
theorem getUint_omit (ms : List (GoString × JValue)) (k : String) (n : Nat)
    (hn : n < 2 ^ 64)
    (h : objGet ms (ascii k) = if n = 0 then none else some (.int n)) :
    getUint ms k = some n := by
  by_cases h0 : n = 0
  · rw [if_pos h0] at h; rw [getUint_absent ms k h, h0]
  · rw [if_neg h0] at h; exact getUint_present ms k n hn h

/-- A signed integer member reads as its value. -/
theorem getInt_present (ms : List (GoString × JValue)) (k : String) (i : Int)
    (hi : -(2 ^ 63) ≤ i ∧ i < 2 ^ 63) (h : objGet ms (ascii k) = some (.int i)) :
    getInt ms k = some i := by
  simp only [getInt, h, hi, and_self, if_true]

/-- A string member reads as its bytes. -/
theorem getStr_present (ms : List (GoString × JValue)) (k : String) (s : GoString)
    (h : objGet ms (ascii k) = some (.str s)) : getStr ms k = some s := by
  simp only [getStr, h]

/-- An optional string member reads as the string written. -/
theorem getStr_omit (ms : List (GoString × JValue)) (k : String) (s : GoString)
    (h : objGet ms (ascii k) = if s = [] then none else some (.str s)) :
    getStr ms k = some s := by
  by_cases h0 : s = []
  · rw [if_pos h0] at h; simp only [getStr, h, h0]
  · rw [if_neg h0] at h; exact getStr_present ms k s h

/-- A number member reads as its value. -/
theorem getFloat_present (ms : List (GoString × JValue)) (k : String) (f : Float64)
    (h : objGet ms (ascii k) = some (.float f)) : getFloat ms k = some f := by
  simp only [getFloat, h]

/-- An optional number member reads as the value written, when a zero is `+0`. -/
theorem getFloat_omit (ms : List (GoString × JValue)) (k : String) (f : Float64)
    (hz : f.isZero = true → f = fzero)
    (h : objGet ms (ascii k) = if f.isZero = true then none else some (.float f)) :
    getFloat ms k = some f := by
  by_cases h0 : f.isZero = true
  · rw [if_pos h0] at h; simp only [getFloat, h, hz h0]
  · rw [if_neg h0] at h; exact getFloat_present ms k f h

/-- An object member is read by the decoder of its type. -/
theorem getObj_present {α : Type} (f : JValue → Option α) (zero : α)
    (ms : List (GoString × JValue)) (k : String) (v : JValue)
    (h : objGet ms (ascii k) = some v) : getObj f zero ms k = f v := by
  simp only [getObj, h]

/-- An optional array member reads as the slice written. -/
theorem getArr_omit {α : Type} (f : JValue → Option α) (ms : List (GoString × JValue))
    (k : String) (items : List JValue) (l : List α) (hl : items.mapM f = some l)
    (h : objGet ms (ascii k) = if items.isEmpty = true then none else some (.arr items)) :
    getArr f ms k = some l := by
  cases items with
  | nil =>
    simp only [List.isEmpty_nil, if_true] at h
    simp only [getArr, h]
    simp only [List.mapM_nil, Option.pure_def, Option.some.injEq] at hl
    rw [hl]
  | cons x xs =>
    simp only [List.isEmpty_cons, Bool.false_eq_true, if_false] at h
    simp only [getArr, h, hl]

/-- Coercion copies a valid string. -/
theorem coerceAux_valid : ∀ (s : GoString) (k : Nat), validAux k s = true → coerceAux k s = s := by
  intro s
  induction s with
  | nil => intro k _; cases k <;> rfl
  | cons b rest ih =>
    intro k h
    cases k with
    | succ k =>
      simp only [validAux] at h
      simp only [coerceAux, ih k h]
    | zero =>
      cases hu : utf8Len (b :: rest) with
      | zero => simp only [validAux, hu] at h; exact absurd h (by decide)
      | succ j =>
        simp only [validAux, hu] at h
        simp only [coerceAux, hu, ih j h]

/-- Coercion to valid UTF-8 leaves a valid string as it is. -/
theorem coerceUTF8_valid (s : GoString) (h : validUTF8 s = true) : coerceUTF8 s = s :=
  coerceAux_valid s 0 h

/-- A valid string is written as its own bytes. -/
theorem jstr_valid (s : GoString) (h : validUTF8 s = true) : jstr s = .str s := by
  unfold jstr; rw [coerceUTF8_valid s h]

/-- A slice is read back element by element. -/
theorem mapM_unmarshal {α : Type} (enc : α → JValue) (dec : JValue → Option α)
    (l : List α) (h : ∀ x ∈ l, dec (enc x) = some x) : (l.map enc).mapM dec = some l := by
  induction l with
  | nil => rfl
  | cons x xs ih =>
    have hx := h x (List.mem_cons_self _ _)
    have hxs := ih (fun y hy => h y (List.mem_cons_of_mem _ hy))
    simp only [List.map_cons, List.mapM_cons, hx, hxs, Option.bind_eq_bind, Option.some_bind,
      Option.pure_def]

/-- A `MemoryMetrics` of `uint64` values is read back as written. -/
theorem memory_round_trip (m : MemoryMetrics) (h : m.Wire) :
    UnmarshalMemoryMetrics (MarshalMemoryMetrics m) = some m := by
  obtain ⟨h1, h2, h3, h4, h5, h6, h7, h8, h9⟩ := h
  unfold MarshalMemoryMetrics UnmarshalMemoryMetrics
  simp only []
  rw [getUint_present _ "total" m.Total h1 (by
    simp only [objGet_append, objGet_juintOmit, objGet_jstrOmit, objGet_jarrOmit,
      objGet_jfloatMembers, objGet_cons, objGet_nil, ascii_inj, String.reduceEq, if_false,
      if_true, ite_self, Option.none_or, Option.or_none, Option.or_some, or_ite]),
   getUint_present _ "used" m.Used h2 (by
    simp only [objGet_append, objGet_juintOmit, objGet_jstrOmit, objGet_jarrOmit,
      objGet_jfloatMembers, objGet_cons, objGet_nil, ascii_inj, String.reduceEq, if_false,
      if_true, ite_self, Option.none_or, Option.or_none, Option.or_some, or_ite]),
   getUint_present _ "free" m.Free h3 (by
    simp only [objGet_append, objGet_juintOmit, objGet_jstrOmit, objGet_jarrOmit,
      objGet_jfloatMembers, objGet_cons, objGet_nil, ascii_inj, String.reduceEq, if_false,
      if_true, ite_self, Option.none_or, Option.or_none, Option.or_some, or_ite]),
   getUint_present _ "available" m.Available h4 (by
    simp only [objGet_append, objGet_juintOmit, objGet_jstrOmit, objGet_jarrOmit,
      objGet_jfloatMembers, objGet_cons, objGet_nil, ascii_inj, String.reduceEq, if_false,
      if_true, ite_self, Option.none_or, Option.or_none, Option.or_some, or_ite]),
   getUint_omit _ "cached" m.Cached h5 (by
    simp only [objGet_append, objGet_juintOmit, objGet_jstrOmit, objGet_jarrOmit,
      objGet_jfloatMembers, objGet_cons, objGet_nil, ascii_inj, String.reduceEq, if_false,
      if_true, ite_self, Option.none_or, Option.or_none, Option.or_some, or_ite]),
   getUint_omit _ "buffers" m.Buffers h6 (by
    simp only [objGet_append, objGet_juintOmit, objGet_jstrOmit, objGet_jarrOmit,
      objGet_jfloatMembers, objGet_cons, objGet_nil, ascii_inj, String.reduceEq, if_false,
      if_true, ite_self, Option.none_or, Option.or_none, Option.or_some, or_ite]),
   getUint_omit _ "swapTotal" m.SwapTotal h7 (by
    simp only [objGet_append, objGet_juintOmit, objGet_jstrOmit, objGet_jarrOmit,
      objGet_jfloatMembers, objGet_cons, objGet_nil, ascii_inj, String.reduceEq, if_false,
      if_true, ite_self, Option.none_or, Option.or_none, Option.or_some, or_ite]),
   getUint_omit _ "swapUsed" m.SwapUsed h8 (by
    simp only [objGet_append, objGet_juintOmit, objGet_jstrOmit, objGet_jarrOmit,
      objGet_jfloatMembers, objGet_cons, objGet_nil, ascii_inj, String.reduceEq, if_false,
      if_true, ite_self, Option.none_or, Option.or_none, Option.or_some, or_ite]),
   getUint_omit _ "swapFree" m.SwapFree h9 (by
    simp only [objGet_append, objGet_juintOmit, objGet_jstrOmit, objGet_jarrOmit,
      objGet_jfloatMembers, objGet_cons, objGet_nil, ascii_inj, String.reduceEq, if_false,
      if_true, ite_self, Option.none_or, Option.or_none, Option.or_some, or_ite])]
  rfl

/-- A `DiskMetrics` with valid strings and `uint64` values is read back as
written. -/
theorem disk_round_trip (d : DiskMetrics)
    (hs : validUTF8 d.Device = true ∧ validUTF8 d.MountPoint = true)
    (h : d.Total < 2 ^ 64 ∧ d.Used < 2 ^ 64 ∧ d.Free < 2 ^ 64 ∧ d.InodesTotal < 2 ^ 64 ∧
      d.InodesUsed < 2 ^ 64 ∧ d.InodesFree < 2 ^ 64 ∧ d.ReadBytes < 2 ^ 64 ∧
      d.WriteBytes < 2 ^ 64) :
    UnmarshalDiskMetrics (MarshalDiskMetrics d) = some d := by
  obtain ⟨h1, h2, h3, h4, h5, h6, h7, h8⟩ := h
  unfold MarshalDiskMetrics UnmarshalDiskMetrics
  simp only [jstr_valid _ hs.1, jstr_valid _ hs.2]
  rw [getStr_present _ "device" d.Device (by
    simp only [objGet_append, objGet_juintOmit, objGet_jstrOmit, objGet_jarrOmit,
      objGet_jfloatMembers, objGet_cons, objGet_nil, ascii_inj, String.reduceEq, if_false,
      if_true, ite_self, Option.none_or, Option.or_none, Option.or_some, or_ite]),
   getStr_present _ "mountPoint" d.MountPoint (by
    simp only [objGet_append, objGet_juintOmit, objGet_jstrOmit, objGet_jarrOmit,
      objGet_jfloatMembers, objGet_cons, objGet_nil, ascii_inj, String.reduceEq, if_false,
      if_true, ite_self, Option.none_or, Option.or_none, Option.or_some, or_ite]),
   getUint_present _ "total" d.Total h1 (by
    simp only [objGet_append, objGet_juintOmit, objGet_jstrOmit, objGet_jarrOmit,
      objGet_jfloatMembers, objGet_cons, objGet_nil, ascii_inj, String.reduceEq, if_false,
      if_true, ite_self, Option.none_or, Option.or_none, Option.or_some, or_ite]),
   getUint_present _ "used" d.Used h2 (by
    simp only [objGet_append, objGet_juintOmit, objGet_jstrOmit, objGet_jarrOmit,
      objGet_jfloatMembers, objGet_cons, objGet_nil, ascii_inj, String.reduceEq, if_false,
      if_true, ite_self, Option.none_or, Option.or_none, Option.or_some, or_ite]),
   getUint_present _ "free" d.Free h3 (by
    simp only [objGet_append, objGet_juintOmit, objGet_jstrOmit, objGet_jarrOmit,
      objGet_jfloatMembers, objGet_cons, objGet_nil, ascii_inj, String.reduceEq, if_false,
      if_true, ite_self, Option.none_or, Option.or_none, Option.or_some, or_ite]),
   getUint_omit _ "inodesTotal" d.InodesTotal h4 (by
    simp only [objGet_append, objGet_juintOmit, objGet_jstrOmit, objGet_jarrOmit,
      objGet_jfloatMembers, objGet_cons, objGet_nil, ascii_inj, String.reduceEq, if_false,
      if_true, ite_self, Option.none_or, Option.or_none, Option.or_some, or_ite]),
   getUint_omit _ "inodesUsed" d.InodesUsed h5 (by
    simp only [objGet_append, objGet_juintOmit, objGet_jstrOmit, objGet_jarrOmit,
      objGet_jfloatMembers, objGet_cons, objGet_nil, ascii_inj, String.reduceEq, if_false,
      if_true, ite_self, Option.none_or, Option.or_none, Option.or_some, or_ite]),
   getUint_omit _ "inodesFree" d.InodesFree h6 (by
    simp only [objGet_append, objGet_juintOmit, objGet_jstrOmit, objGet_jarrOmit,
      objGet_jfloatMembers, objGet_cons, objGet_nil, ascii_inj, String.reduceEq, if_false,
      if_true, ite_self, Option.none_or, Option.or_none, Option.or_some, or_ite]),
   getUint_omit _ "readBytes" d.ReadBytes h7 (by
    simp only [objGet_append, objGet_juintOmit, objGet_jstrOmit, objGet_jarrOmit,
      objGet_jfloatMembers, objGet_cons, objGet_nil, ascii_inj, String.reduceEq, if_false,
      if_true, ite_self, Option.none_or, Option.or_none, Option.or_some, or_ite]),
   getUint_omit _ "writeBytes" d.WriteBytes h8 (by
    simp only [objGet_append, objGet_juintOmit, objGet_jstrOmit, objGet_jarrOmit,
      objGet_jfloatMembers, objGet_cons, objGet_nil, ascii_inj, String.reduceEq, if_false,
      if_true, ite_self, Option.none_or, Option.or_none, Option.or_some, or_ite])]
  rfl

/-- A `NetworkMetrics` with a valid name and `uint64` values is read back as
written. -/
theorem network_round_trip (n : NetworkMetrics) (hs : validUTF8 n.Interface = true)
    (h : n.Wire) :
    UnmarshalNetworkMetrics (MarshalNetworkMetrics n) = some n := by
  obtain ⟨h1, h2, h3, h4, h5, h6, h7, h8⟩ := h
  unfold MarshalNetworkMetrics UnmarshalNetworkMetrics
  simp only [jstr_valid _ hs]
  rw [getStr_present _ "interface" n.Interface (by
    simp only [objGet_append, objGet_juintOmit, objGet_jstrOmit, objGet_jarrOmit,
      objGet_jfloatMembers, objGet_cons, objGet_nil, ascii_inj, String.reduceEq, if_false,
      if_true, ite_self, Option.none_or, Option.or_none, Option.or_some, or_ite]),
   getUint_present _ "rxBytes" n.RxBytes h1 (by
    simp only [objGet_append, objGet_juintOmit, objGet_jstrOmit, objGet_jarrOmit,
      objGet_jfloatMembers, objGet_cons, objGet_nil, ascii_inj, String.reduceEq, if_false,
      if_true, ite_self, Option.none_or, Option.or_none, Option.or_some, or_ite]),
   getUint_present _ "txBytes" n.TxBytes h2 (by
    simp only [objGet_append, objGet_juintOmit, objGet_jstrOmit, objGet_jarrOmit,
      objGet_jfloatMembers, objGet_cons, objGet_nil, ascii_inj, String.reduceEq, if_false,
      if_true, ite_self, Option.none_or, Option.or_none, Option.or_some, or_ite]),
   getUint_omit _ "rxPackets" n.RxPackets h3 (by
    simp only [objGet_append, objGet_juintOmit, objGet_jstrOmit, objGet_jarrOmit,
      objGet_jfloatMembers, objGet_cons, objGet_nil, ascii_inj, String.reduceEq, if_false,
      if_true, ite_self, Option.none_or, Option.or_none, Option.or_some, or_ite]),
   getUint_omit _ "txPackets" n.TxPackets h4 (by
    simp only [objGet_append, objGet_juintOmit, objGet_jstrOmit, objGet_jarrOmit,
      objGet_jfloatMembers, objGet_cons, objGet_nil, ascii_inj, String.reduceEq, if_false,
      if_true, ite_self, Option.none_or, Option.or_none, Option.or_some, or_ite]),
   getUint_omit _ "rxErrors" n.RxErrors h5 (by
    simp only [objGet_append, objGet_juintOmit, objGet_jstrOmit, objGet_jarrOmit,
      objGet_jfloatMembers, objGet_cons, objGet_nil, ascii_inj, String.reduceEq, if_false,
      if_true, ite_self, Option.none_or, Option.or_none, Option.or_some, or_ite]),
   getUint_omit _ "txErrors" n.TxErrors h6 (by
    simp only [objGet_append, objGet_juintOmit, objGet_jstrOmit, objGet_jarrOmit,
      objGet_jfloatMembers, objGet_cons, objGet_nil, ascii_inj, String.reduceEq, if_false,
      if_true, ite_self, Option.none_or, Option.or_none, Option.or_some, or_ite]),
   getUint_omit _ "rxDropped" n.RxDropped h7 (by
    simp only [objGet_append, objGet_juintOmit, objGet_jstrOmit, objGet_jarrOmit,
      objGet_jfloatMembers, objGet_cons, objGet_nil, ascii_inj, String.reduceEq, if_false,
      if_true, ite_self, Option.none_or, Option.or_none, Option.or_some, or_ite]),
   getUint_omit _ "txDropped" n.TxDropped h8 (by
    simp only [objGet_append, objGet_juintOmit, objGet_jstrOmit, objGet_jarrOmit,
      objGet_jfloatMembers, objGet_cons, objGet_nil, ascii_inj, String.reduceEq, if_false,
      if_true, ite_self, Option.none_or, Option.or_none, Option.or_some, or_ite])]
  rfl

/-- What `MarshalCpuMetrics` writes when the six values are finite. -/
theorem MarshalCpuMetrics_finite (c : CpuMetrics)
    (h : c.User.isFinite = true ∧ c.System.isFinite = true ∧ c.Idle.isFinite = true ∧
      c.IOWait.isFinite = true ∧ c.Steal.isFinite = true ∧ c.Nice.isFinite = true) :
    MarshalCpuMetrics c = .ok (.obj ([(ascii "user", .float c.User),
        (ascii "system", .float c.System), (ascii "idle", .float c.Idle)]
      ++ (if c.IOWait.isZero = true then [] else [(ascii "iowait", .float c.IOWait)])
      ++ (if c.Steal.isZero = true then [] else [(ascii "steal", .float c.Steal)])
      ++ (if c.Nice.isZero = true then [] else [(ascii "nice", .float c.Nice)]))) := by
  obtain ⟨h1, h2, h3, h4, h5, h6⟩ := h
  unfold MarshalCpuMetrics
  rw [jfloat_finite _ h1, jfloat_finite _ h2, jfloat_finite _ h3, jfloatOmit_finite _ _ h4,
    jfloatOmit_finite _ _ h5, jfloatOmit_finite _ _ h6]
  rfl

/-- A `CpuMetrics` of finite values marshals, and is read back as written. -/
theorem cpu_round_trip (c : CpuMetrics) (h : c.Wire) :
    ∃ j, MarshalCpuMetrics c = .ok j ∧ UnmarshalCpuMetrics j = some c := by
  obtain ⟨hfin, hz1, hz2, hz3⟩ := h
  rw [MarshalCpuMetrics_finite c hfin]
  refine ⟨_, rfl, ?_⟩
  unfold UnmarshalCpuMetrics
  simp only []
  rw [getFloat_present _ "user" c.User (by
    simp only [objGet_append, objGet_juintOmit, objGet_jstrOmit, objGet_jarrOmit,
      objGet_jfloatMembers, objGet_cons, objGet_nil, ascii_inj, String.reduceEq, if_false,
      if_true, ite_self, Option.none_or, Option.or_none, Option.or_some, or_ite]),
   getFloat_present _ "system" c.System (by
    simp only [objGet_append, objGet_juintOmit, objGet_jstrOmit, objGet_jarrOmit,
      objGet_jfloatMembers, objGet_cons, objGet_nil, ascii_inj, String.reduceEq, if_false,
      if_true, ite_self, Option.none_or, Option.or_none, Option.or_some, or_ite]),
   getFloat_present _ "idle" c.Idle (by
    simp only [objGet_append, objGet_juintOmit, objGet_jstrOmit, objGet_jarrOmit,
      objGet_jfloatMembers, objGet_cons, objGet_nil, ascii_inj, String.reduceEq, if_false,
      if_true, ite_self, Option.none_or, Option.or_none, Option.or_some, or_ite]),
   getFloat_omit _ "iowait" c.IOWait hz1 (by
    simp only [objGet_append, objGet_juintOmit, objGet_jstrOmit, objGet_jarrOmit,
      objGet_jfloatMembers, objGet_cons, objGet_nil, ascii_inj, String.reduceEq, if_false,
      if_true, ite_self, Option.none_or, Option.or_none, Option.or_some, or_ite]),
   getFloat_omit _ "steal" c.Steal hz2 (by
    simp only [objGet_append, objGet_juintOmit, objGet_jstrOmit, objGet_jarrOmit,
      objGet_jfloatMembers, objGet_cons, objGet_nil, ascii_inj, String.reduceEq, if_false,
      if_true, ite_self, Option.none_or, Option.or_none, Option.or_some, or_ite]),
   getFloat_omit _ "nice" c.Nice hz3 (by
    simp only [objGet_append, objGet_juintOmit, objGet_jstrOmit, objGet_jarrOmit,
      objGet_jfloatMembers, objGet_cons, objGet_nil, ascii_inj, String.reduceEq, if_false,
      if_true, ite_self, Option.none_or, Option.or_none, Option.or_some, or_ite])]
  rfl

/-- A snapshot with valid strings and numbers of their Go types marshals, and
is read back as written. -/
theorem system_round_trip (s : SystemMetrics) (hv : s.ValidStrings) (hw : s.Wire) :
    ∃ j, MarshalSystemMetrics s = .ok j ∧ UnmarshalSystemMetrics j = some s := by
  obtain ⟨hv1, hv2, hv3, hv4, hvd, hvn⟩ := hv
  obtain ⟨hts, hcpu, hmem, hds, hns⟩ := hw
  obtain ⟨cj, hcj, hcu⟩ := cpu_round_trip s.CPU hcpu
  have hd : (s.Disks.map MarshalDiskMetrics).mapM UnmarshalDiskMetrics = some s.Disks :=
    mapM_unmarshal _ _ _ (fun d hd => disk_round_trip d (hvd d hd) (hds d hd))
  have hn : (s.Networks.map MarshalNetworkMetrics).mapM UnmarshalNetworkMetrics
      = some s.Networks :=
    mapM_unmarshal _ _ _ (fun n hn => network_round_trip n (hvn n hn) (hns n hn))
  unfold MarshalSystemMetrics
  rw [hcj]
  refine ⟨_, rfl, ?_⟩
  unfold UnmarshalSystemMetrics
  simp only []
  rw [getStr_present _ "hostname" s.Hostname (by
    simp only [objGet_append, objGet_juintOmit, objGet_jstrOmit, objGet_jarrOmit,
      objGet_jfloatMembers, objGet_cons, objGet_nil, ascii_inj, String.reduceEq, if_false,
      if_true, ite_self, Option.none_or, Option.or_none, Option.or_some, or_ite]
    rw [jstr_valid _ hv1]),
   getInt_present _ "timestamp" s.Timestamp hts (by
    simp only [objGet_append, objGet_juintOmit, objGet_jstrOmit, objGet_jarrOmit,
      objGet_jfloatMembers, objGet_cons, objGet_nil, ascii_inj, String.reduceEq, if_false,
      if_true, ite_self, Option.none_or, Option.or_none, Option.or_some, or_ite]),
   getStr_present _ "os" s.OS (by
    simp only [objGet_append, objGet_juintOmit, objGet_jstrOmit, objGet_jarrOmit,
      objGet_jfloatMembers, objGet_cons, objGet_nil, ascii_inj, String.reduceEq, if_false,
      if_true, ite_self, Option.none_or, Option.or_none, Option.or_some, or_ite]
    rw [jstr_valid _ hv2]),
   getStr_omit _ "osVersion" s.OSVersion (by
    simp only [objGet_append, objGet_juintOmit, objGet_jstrOmit, objGet_jarrOmit,
      objGet_jfloatMembers, objGet_cons, objGet_nil, ascii_inj, String.reduceEq, if_false,
      if_true, ite_self, Option.none_or, Option.or_none, Option.or_some, or_ite]
    rw [jstr_valid _ hv3]),
   getStr_omit _ "architecture" s.Architecture (by
    simp only [objGet_append, objGet_juintOmit, objGet_jstrOmit, objGet_jarrOmit,
      objGet_jfloatMembers, objGet_cons, objGet_nil, ascii_inj, String.reduceEq, if_false,
      if_true, ite_self, Option.none_or, Option.or_none, Option.or_some, or_ite]
    rw [jstr_valid _ hv4]),
   getObj_present _ _ _ "cpu" cj (by
    simp only [objGet_append, objGet_juintOmit, objGet_jstrOmit, objGet_jarrOmit,
      objGet_jfloatMembers, objGet_cons, objGet_nil, ascii_inj, String.reduceEq, if_false,
      if_true, ite_self, Option.none_or, Option.or_none, Option.or_some, or_ite]),
   getObj_present _ _ _ "memory" (MarshalMemoryMetrics s.Memory) (by
    simp only [objGet_append, objGet_juintOmit, objGet_jstrOmit, objGet_jarrOmit,
      objGet_jfloatMembers, objGet_cons, objGet_nil, ascii_inj, String.reduceEq, if_false,
      if_true, ite_self, Option.none_or, Option.or_none, Option.or_some, or_ite]),
   getArr_omit _ _ "disks" (s.Disks.map MarshalDiskMetrics) s.Disks hd (by
    simp only [objGet_append, objGet_juintOmit, objGet_jstrOmit, objGet_jarrOmit,
      objGet_jfloatMembers, objGet_cons, objGet_nil, ascii_inj, String.reduceEq, if_false,
      if_true, ite_self, Option.none_or, Option.or_none, Option.or_some, or_ite]),
   getArr_omit _ _ "networks" (s.Networks.map MarshalNetworkMetrics) s.Networks hn (by
    simp only [objGet_append, objGet_juintOmit, objGet_jstrOmit, objGet_jarrOmit,
      objGet_jfloatMembers, objGet_cons, objGet_nil, ascii_inj, String.reduceEq, if_false,
      if_true, ite_self, Option.none_or, Option.or_none, Option.or_some, or_ite]),
   hcu, memory_round_trip s.Memory hmem]
  rfl

/-- The name written by an optional integer member. -/
theorem keys_juintOmit (k : String) (n : Nat) :
    (juintOmit k n).map Prod.fst = if n = 0 then [] else [ascii k] := by
  unfold juintOmit; split_ifs <;> rfl

/-- The name written by an optional string member. -/
theorem keys_jstrOmit (k : String) (s : GoString) :
    (jstrOmit k s).map Prod.fst = if s = [] then [] else [ascii k] := by
  unfold jstrOmit; split_ifs <;> rfl

/-- The name written by an optional array member. -/
theorem keys_jarrOmit (k : String) (items : List JValue) :
    (jarrOmit k items).map Prod.fst = if items.isEmpty = true then [] else [ascii k] := by
  unfold jarrOmit; cases items <;> rfl

/-- The name written by an optional number member. -/
theorem keys_jfloatMembers (k : String) (f : Float64) :
    (if f.isZero = true then [] else [(ascii k, JValue.float f)]).map Prod.fst =
      if f.isZero = true then [] else [ascii k] := by
  split_ifs <;> rfl

/-- Lookup in the optional member "tags". -/
theorem objGet_tagsMember (tags : GoMap GoString) (k : GoString) :
    objGet (tagsMember tags) k =
      if tags.isEmpty = true then none
      else if k = ascii "tags" then some (JValue.obj
        ((sortTags tags).map (fun kv => (coerceUTF8 kv.1, jstr kv.2)))) else none := by
  cases tags with
  | nil => rfl
  | cons x xs =>
    simp only [List.isEmpty_cons, Bool.false_eq_true, if_false, tagsMember]
    split_ifs <;> simp [objGet, *]

/-- The name written by the optional member "tags". -/
theorem keys_tagsMember (tags : GoMap GoString) :
    (tagsMember tags).map Prod.fst = if tags.isEmpty = true then [] else [ascii "tags"] := by
  cases tags <;> rfl

/-! ## Failed calls and counters that went down -/

/-- A `Collect` that returns an error returns no snapshot and leaves the
collector as it was. -/
theorem Collect_err_state (p : Platform) (c : Collector) (t : Tick)
    (h : (Collect p c t).1.2 ≠ none) : (Collect p c t).1.1 = none ∧ (Collect p c t).2 = c := by
  cases hs : (Collect p c t).1.1 with
  | none => exact ⟨rfl, Collect_fail_state p c t hs⟩
  | some s =>
    obtain ⟨b, a, m, ns, h1, h2, h3, h4⟩ := Collect_some_reads p c t s hs
    rw [Collect_ok p c t b a m ns h1 h2 h3 h4] at h
    exact absurd rfl h

/-- A run of calls that all return an error leaves the collector as it was. -/
theorem collectAll_err_state (p : Platform) (c : Collector) (ts : List Tick)
    (h : ∀ r ∈ (collectAll p c ts).1, r.2 ≠ none) : (collectAll p c ts).2 = c := by
  apply collectAll_failed_state
  induction ts generalizing c with
  | nil => intro r hr; simp [collectAll] at hr
  | cons t ts ih =>
    intro r hr
    simp only [collectAll] at h hr
    have h0 := Collect_err_state p c t (h _ (List.mem_cons_self _ _))
    rcases List.mem_cons.1 hr with hr | hr
    · rw [hr]; exact h0.1
    · exact ih _ (fun r' hr' => h r' (List.mem_cons_of_mem _ hr')) r hr

/-- The `uint64` difference of a value and a larger one wraps around: it is
`a + 2^64 - b`, neither zero nor out of range. -/
theorem sub64_wrap (a b : Nat) (ha : a < 2 ^ 64) (hb : b < 2 ^ 64) (h : a < b) :
    sub64 a b = a + 2 ^ 64 - b ∧ 0 < sub64 a b ∧ sub64 a b < 2 ^ 64 := by
  have e : sub64 a b = a + 2 ^ 64 - b := by
    unfold sub64 uint64Mod
    rw [Nat.mod_eq_of_lt ha, Nat.mod_eq_of_lt hb, Nat.mod_eq_of_lt (by omega)]
  rw [e]
  omega

/-- A record of the read with a stored sample and positive elapsed seconds has
its rate entry among the entries after `collectNetwork`. -/
theorem collectNetwork_emits (p : Platform) (c : Collector) (metrics : SystemMetrics)
    (ns : List network.Stats) (now : Time) (n : network.Stats) (prev : NetworkSample)
    (hn : n ∈ ns) (hl : n.Name ≠ lo) (hp : mapGet c.prevNetwork n.Name = some prev)
    (hlt : Float64.lt fzero (Duration.Seconds (now.Sub prev.time)) = true) :
    rateEntry p n prev (Duration.Seconds (now.Sub prev.time)) ∈
      (collectNetwork p c metrics (.ok ns) now).2.1.Networks := by
  have : (collectNetwork p c metrics (.ok ns) now).2.1.Networks =
      metrics.Networks ++ ns.flatMap (stepEntries p c.prevNetwork now) := by
    simp only [collectNetwork, foldl_networkStep_fst]
  rw [this]
  apply List.mem_append_right
  apply List.mem_flatMap.2
  refine ⟨n, hn, ?_⟩
  rw [stepEntries_some p _ _ n prev hl hp, if_pos hlt]
  exact List.mem_singleton.2 rfl

/-- The entries appended for records that all carry a name with a stored
sample: one rate entry per record when the elapsed seconds are positive, none
otherwise. -/
theorem flatMap_stepEntries_named (p : Platform) (pv : GoMap NetworkSample) (now : Time)
    (name : GoString) (prev : NetworkSample) (hl : name ≠ lo)
    (hp : mapGet pv name = some prev) (l : List network.Stats)
    (hname : ∀ r ∈ l, r.Name = name) :
    l.flatMap (stepEntries p pv now) =
      if Float64.lt fzero (Duration.Seconds (now.Sub prev.time)) = true
      then l.map (fun r => rateEntry p r prev (Duration.Seconds (now.Sub prev.time)))
      else [] := by
  induction l with
  | nil => simp
  | cons r rs ih =>
    have hr : r.Name = name := hname r (List.mem_cons_self _ _)
    have ih' := ih (fun x hx => hname x (List.mem_cons_of_mem _ hx))
    rw [List.flatMap_cons, ih',
      stepEntries_some p pv now r prev (by rw [hr]; exact hl) (by rw [hr]; exact hp)]
    split_ifs <;> simp

/-! ## The claims -/

/-- C2 (as amended): when all reads of a `Collect` succeed, a non-loopback
interface name with a stored sample gets, if the elapsed seconds are greater
than 0, one entry for each record of the OS read that carries the name, in read
order (exactly one when the read lists the name once), whose rxBytes and
txBytes are `uint64(float64(current - previous) / elapsedSeconds)`, the
`float64` quotient with its fraction discarded; if the elapsed seconds are not
greater than 0 it gets no entry. -/
theorem collectNetwork_rate (p : Platform) (c : Collector) (t : Tick) (b a : cpu.Stats)
    (m : memory.Stats) (ns : List network.Stats) (name : GoString) (prev : NetworkSample)
    (h1 : t.cpuBefore = .ok b) (h2 : t.cpuAfter = .ok a) (h3 : t.mem = .ok m)
    (h4 : t.net = .ok ns)
    (hl : name ≠ lo) (hp : mapGet c.prevNetwork name = some prev) :
    ∃ s, (Collect p c t).1 = (some s, none) ∧
      (Float64.lt fzero (Duration.Seconds (t.netNow.Sub prev.time)) = true →
        s.Networks.filter (fun e => decide (e.Interface = name)) =
          (ns.filter (fun r => decide (r.Name = name))).map (fun r =>
            { Interface := r.Name
              RxBytes := Float64.toUint64 p.convImpl
                (Float64.div (Float64.ofNat (sub64 r.RxBytes prev.rxBytes))
                  (Duration.Seconds (t.netNow.Sub prev.time)))
              TxBytes := Float64.toUint64 p.convImpl
                (Float64.div (Float64.ofNat (sub64 r.TxBytes prev.txBytes))
                  (Duration.Seconds (t.netNow.Sub prev.time)))
              RxPackets := 0
              TxPackets := 0
              RxErrors := 0
              TxErrors := 0
              RxDropped := 0
              TxDropped := 0 }) ∧
        (s.Networks.filter (fun e => decide (e.Interface = name))).length =
          (ns.filter (fun r => decide (r.Name = name))).length ∧
        (∀ n, ns.filter (fun r => decide (r.Name = name)) = [n] →
          s.Networks.filter (fun e => decide (e.Interface = name)) =
            [{ Interface := name
               RxBytes := Float64.toUint64 p.convImpl
                 (Float64.div (Float64.ofNat (sub64 n.RxBytes prev.rxBytes))
                   (Duration.Seconds (t.netNow.Sub prev.time)))
               TxBytes := Float64.toUint64 p.convImpl
                 (Float64.div (Float64.ofNat (sub64 n.TxBytes prev.txBytes))
                   (Duration.Seconds (t.netNow.Sub prev.time)))
               RxPackets := 0
               TxPackets := 0
               RxErrors := 0
               TxErrors := 0
               RxDropped := 0
               TxDropped := 0 }])) ∧
      (Float64.lt fzero (Duration.Seconds (t.netNow.Sub prev.time)) = false →
        s.Networks.filter (fun e => decide (e.Interface = name)) = []) := by
  rw [Collect_ok p c t b a m ns h1 h2 h3 h4]
  have hnamed : ∀ r ∈ ns.filter (fun r => decide (r.Name = name)), r.Name = name := by
    intro r hr
    simpa using (List.mem_filter.1 hr).2
  have hfm := flatMap_stepEntries_named p c.prevNetwork t.netNow name prev hl hp _ hnamed
  refine ⟨_, rfl, ?_, ?_⟩
  · intro hlt
    simp only []
    rw [filter_flatMap_stepEntries, hfm, if_pos hlt]
    refine ⟨rfl, by rw [List.length_map], ?_⟩
    intro n hn
    have hnn : n.Name = name := hnamed n (by rw [hn]; exact List.mem_singleton.2 rfl)
    rw [hn, List.map_cons, List.map_nil]
    simp only [rateEntry, hnn]
  · intro hlt
    simp only []
    rw [filter_flatMap_stepEntries, hfm, if_neg (by simp [hlt])]

/-- The scenario of the specification for C2: stored sample rx = 1000, tx = 500
at T0, read rx = 2000, tx = 900 two seconds later: one entry with rxBytes = 500
and txBytes = 200. -/
theorem collectNetwork_rate_witness :
    (Collect exPlatform exCollector exTick).1.1.map (fun s => s.Networks) =
      some [{ Interface := eth0, RxBytes := 500, TxBytes := 200, RxPackets := 0,
              TxPackets := 0, RxErrors := 0, TxErrors := 0, RxDropped := 0, TxDropped := 0 }] ∧
    Float64.lt fzero (Duration.Seconds ((exTime 2).Sub (exTime 0))) = true ∧
    ∃ s, (Collect exPlatform exCollector exTick).1 = (some s, none) ∧
      (Float64.lt fzero (Duration.Seconds (exTick.netNow.Sub (exTime 0))) = true →
        s.Networks.filter (fun e => decide (e.Interface = eth0)) =
          ([({ Name := eth0, RxBytes := 2000, TxBytes := 900 } : network.Stats)].filter
              (fun r => decide (r.Name = eth0))).map (fun r =>
            { Interface := r.Name
              RxBytes := Float64.toUint64 exPlatform.convImpl
                (Float64.div (Float64.ofNat (sub64 r.RxBytes 1000))
                  (Duration.Seconds (exTick.netNow.Sub (exTime 0))))
              TxBytes := Float64.toUint64 exPlatform.convImpl
                (Float64.div (Float64.ofNat (sub64 r.TxBytes 500))
                  (Duration.Seconds (exTick.netNow.Sub (exTime 0))))
              RxPackets := 0
              TxPackets := 0
              RxErrors := 0
              TxErrors := 0
              RxDropped := 0
              TxDropped := 0 }) ∧
        (s.Networks.filter (fun e => decide (e.Interface = eth0))).length =
          ([({ Name := eth0, RxBytes := 2000, TxBytes := 900 } : network.Stats)].filter
              (fun r => decide (r.Name = eth0))).length ∧
        (∀ n, [({ Name := eth0, RxBytes := 2000, TxBytes := 900 } : network.Stats)].filter
              (fun r => decide (r.Name = eth0)) = [n] →
          s.Networks.filter (fun e => decide (e.Interface = eth0)) =
            [{ Interface := eth0
               RxBytes := Float64.toUint64 exPlatform.convImpl
                 (Float64.div (Float64.ofNat (sub64 n.RxBytes 1000))
                   (Duration.Seconds (exTick.netNow.Sub (exTime 0))))
               TxBytes := Float64.toUint64 exPlatform.convImpl
                 (Float64.div (Float64.ofNat (sub64 n.TxBytes 500))
                   (Duration.Seconds (exTick.netNow.Sub (exTime 0))))
               RxPackets := 0
               TxPackets := 0
               RxErrors := 0
               TxErrors := 0
               RxDropped := 0
               TxDropped := 0 }])) ∧
      (Float64.lt fzero (Duration.Seconds (exTick.netNow.Sub (exTime 0))) = false →
        s.Networks.filter (fun e => decide (e.Interface = eth0)) = []) :=
  ⟨by decide, by decide,
    collectNetwork_rate exPlatform exCollector exTick _ _ _ _ eth0
      { rxBytes := 1000, txBytes := 500, time := exTime 0 }
      rfl rfl rfl rfl (by decide) (by decide)⟩

/-- C2 fails as stated. With the sample rx = 1000, tx = 500 stored at `T0`:
a read two seconds later that lists eth0 twice yields two entries for eth0, not
one; and a read 1.1 seconds later with 1100 more bytes received and sent, a
rate of exactly 1000 bytes per second, yields rxBytes = txBytes = 999, the
`float64` quotient with its fraction discarded. -/
theorem collectNetwork_rate_counterexample :
    eth0 ≠ lo ∧
    mapGet exCollector.prevNetwork eth0 =
      some { rxBytes := 1000, txBytes := 500, time := exTime 0 } ∧
    Float64.lt fzero (Duration.Seconds (dupTick.netNow.Sub (exTime 0))) = true ∧
    (Collect exPlatform exCollector dupTick).1.1.map
        (fun s => s.Networks.filter (fun e => decide (e.Interface = eth0))) =
      some [{ Interface := eth0, RxBytes := 500, TxBytes := 200, RxPackets := 0,
              TxPackets := 0, RxErrors := 0, TxErrors := 0, RxDropped := 0, TxDropped := 0 },
            { Interface := eth0, RxBytes := 800, TxBytes := 225, RxPackets := 0,
              TxPackets := 0, RxErrors := 0, TxErrors := 0, RxDropped := 0, TxDropped := 0 }] ∧
    Float64.lt fzero (Duration.Seconds (fracTick.netNow.Sub (exTime 0))) = true ∧
    fracTick.netNow.Sub (exTime 0) = 1100000000 ∧
    (2100 - 1000) * 1000000000 = 1000 * (1100000000 : Int) ∧
    (1600 - 500) * 1000000000 = 1000 * (1100000000 : Int) ∧
    (Collect exPlatform exCollector fracTick).1.1.map (fun s => s.Networks) =
      some [{ Interface := eth0, RxBytes := 999, TxBytes := 999, RxPackets := 0,
              TxPackets := 0, RxErrors := 0, TxErrors := 0, RxDropped := 0, TxDropped := 0 }] :=
  ⟨by decide, by decide, by decide, by decide, by decide, by decide, by decide, by decide,
    by decide⟩

/-- C3: take a collector created by `New` after any run of calls, then a
successful `Collect` whose OS read is `ns1`, then any number of failed calls,
then a successful `Collect`: an interface name that `ns1` does not list has no
entry in the Networks of the last snapshot. And the first successful `Collect`
after `New` (failed calls may come before it) has an empty Networks list. -/
theorem no_baseline_no_rate (p : Platform) (hostname : GoString) (pre mid : List Tick)
    (t1 t2 : Tick) (ns1 : List network.Stats) (s1 s2 : SystemMetrics) (name : GoString)
    (hs1 : (Collect p (collectAll p (New hostname) pre).2 t1).1.1 = some s1)
    (hn1 : t1.net = .ok ns1)
    (hmid : ∀ r ∈ (collectAll p (Collect p (collectAll p (New hostname) pre).2 t1).2 mid).1,
      r.1 = none)
    (hs2 : (Collect p
      (collectAll p (Collect p (collectAll p (New hostname) pre).2 t1).2 mid).2 t2).1.1 = some s2)
    (hname : ∀ n ∈ ns1, n.Name ≠ name) :
    (∀ e ∈ s2.Networks, e.Interface ≠ name) ∧
    (∀ (fails : List Tick) (t : Tick) (s : SystemMetrics),
      (∀ r ∈ (collectAll p (New hostname) fails).1, r.1 = none) →
      (Collect p (collectAll p (New hostname) fails).2 t).1.1 = some s → s.Networks = []) := by
  constructor
  · intro e he hint
    rw [collectAll_failed_state p mid _ hmid] at hs2
    obtain ⟨ns1', hn1', _, hst⟩ := Collect_networks p _ t1 s1 hs1
    rw [hn1] at hn1'
    injection hn1' with hn1'
    subst hn1'
    obtain ⟨ns2, _, hnet, _⟩ := Collect_networks p _ t2 s2 hs2
    rw [hnet] at he
    obtain ⟨n, _, hen⟩ := List.mem_flatMap.1 he
    obtain ⟨hi, _, prev, hprev⟩ := stepEntries_interface p _ _ n e hen
    rw [hst, ← hi, hint, stored_none p _ _ name ns1 (Or.inr hname)] at hprev
    exact Option.noConfusion hprev
  · intro fails t s hf hs
    rw [collectAll_failed_state p fails _ hf] at hs
    obtain ⟨ns, _, hnet, _⟩ := Collect_networks p _ t s hs
    rw [hnet]
    apply List.flatMap_eq_nil_iff.2
    intro n _
    exact stepEntries_none p _ _ n rfl

/-- An instance of C3: after the scenario tick, which lists only eth0, a tick
that lists eth0 and eth1 yields an entry for eth0 and none for eth1. -/
theorem no_baseline_no_rate_witness :
    ∃ s2, (Collect exPlatform (Collect exPlatform (New (ascii "host")) exTick).2 exTick2).1.1
        = some s2 ∧
      s2.Networks.map (fun e => e.Interface) = [eth0] ∧
      ((∀ e ∈ s2.Networks, e.Interface ≠ ascii "eth1") ∧
       (∀ (fails : List Tick) (t : Tick) (s : SystemMetrics),
        (∀ r ∈ (collectAll exPlatform (New (ascii "host")) fails).1, r.1 = none) →
        (Collect exPlatform (collectAll exPlatform (New (ascii "host")) fails).2 t).1.1 = some s →
        s.Networks = [])) :=
  ⟨_, rfl, by decide,
    no_baseline_no_rate exPlatform (ascii "host") [] [] exTick exTick2
      [{ Name := eth0, RxBytes := 2000, TxBytes := 900 }] _ _ (ascii "eth1")
      rfl rfl (by simp [collectAll]) rfl (by decide)⟩

/-- C4: after a successful `collectNetwork` the stored mapping has a binding
for exactly the names of the non-loopback records of the current read (each
key once); every stored sample carries this call's time and the rxBytes and
txBytes of a record of that name, of the record itself when the read lists the
name once; nothing depends on the mapping stored before the call. -/
theorem collectNetwork_replaces_state (p : Platform) (c : Collector) (metrics : SystemMetrics)
    (ns : List network.Stats) (now : Time) :
    (collectNetwork p c metrics (.ok ns) now).1 = none ∧
    (∀ name, name ∈ (collectNetwork p c metrics (.ok ns) now).2.2.prevNetwork.map Prod.fst ↔
      (name ≠ lo ∧ ∃ n ∈ ns, n.Name = name)) ∧
    ((collectNetwork p c metrics (.ok ns) now).2.2.prevNetwork.map Prod.fst).Nodup ∧
    (∀ name s, mapGet (collectNetwork p c metrics (.ok ns) now).2.2.prevNetwork name = some s →
      s.time = now ∧ ∃ n ∈ ns, n.Name = name ∧ s.rxBytes = n.RxBytes ∧ s.txBytes = n.TxBytes) ∧
    (∀ n ∈ ns, n.Name ≠ lo → (∀ r ∈ ns, r.Name = n.Name → r = n) →
      mapGet (collectNetwork p c metrics (.ok ns) now).2.2.prevNetwork n.Name =
        some { rxBytes := n.RxBytes, txBytes := n.TxBytes, time := now }) ∧
    (∀ c2 : Collector, (collectNetwork p c2 metrics (.ok ns) now).2.2.prevNetwork =
      (collectNetwork p c metrics (.ok ns) now).2.2.prevNetwork) := by
  have hst : ∀ c0 : Collector, (collectNetwork p c0 metrics (.ok ns) now).2.2.prevNetwork =
      (ns.foldl (networkStep p c0.prevNetwork now) (metrics.Networks, [])).2 := fun _ => rfl
  have hind : ∀ (pv1 pv2 : GoMap NetworkSample) (l : List network.Stats)
      (a1 a2 : List NetworkMetrics × GoMap NetworkSample), a1.2 = a2.2 →
      (l.foldl (networkStep p pv1 now) a1).2 = (l.foldl (networkStep p pv2 now) a2).2 := by
    intro pv1 pv2 l
    induction l with
    | nil => intro a1 a2 h; exact h
    | cons n l ih =>
      intro a1 a2 h
      rw [List.foldl_cons, List.foldl_cons]
      apply ih
      rw [networkStep_snd, networkStep_snd, h]
  have hnil : (collectNetwork p c metrics (.ok ns) now).2.2.prevNetwork =
      (ns.foldl (networkStep p c.prevNetwork now) ([], [])).2 := by
    rw [hst]; exact hind _ _ ns _ _ rfl
  refine ⟨rfl, ?_, ?_, ?_, ?_, ?_⟩
  · intro name
    rw [← mapGet_isSome_iff, hnil]
    constructor
    · intro h
      obtain ⟨s, hs⟩ := Option.isSome_iff_exists.1 h
      obtain ⟨h1, n, hn, hnn, _⟩ := stored_some p _ now name ns s hs
      exact ⟨h1, n, hn, hnn⟩
    · rintro ⟨h1, n, hn, hnn⟩
      cases hg : mapGet (ns.foldl (networkStep p c.prevNetwork now) ([], [])).2 name with
      | some s => rfl
      | none =>
        rw [foldl_networkStep_snd] at hg
        cases hf : ns.reverse.find? (fun r => decide (r.Name = name ∧ r.Name ≠ lo)) with
        | none =>
          have := List.find?_eq_none.1 hf n (List.mem_reverse.2 hn)
          rw [← hnn] at h1
          simp [hnn, h1] at this
          rw [hnn] at h1
          exact absurd this h1
        | some r => rw [hf] at hg; simp at hg
  · rw [hnil]
    exact foldl_networkStep_nodup p _ now ns _ List.nodup_nil
  · intro name s hs
    rw [hnil] at hs
    obtain ⟨_, n, hn, hnn, hsn⟩ := stored_some p _ now name ns s hs
    subst hsn
    exact ⟨rfl, n, hn, hnn, rfl, rfl⟩
  · intro n hn hl hu
    rw [hnil]
    exact stored_unique p _ now ns n hn hl hu
  · intro c2
    rw [hst, hst]
    exact hind _ _ ns _ _ rfl

/-- C5: for every run of `Collect` calls (successful or not) on a collector
created by `New` and whatever the OS reports, no entry of a returned snapshot's
Networks is named "lo", and "lo" is not a key of the stored mapping after the
run (every intermediate state is the state after a shorter run). -/
theorem loopback_excluded (p : Platform) (hostname : GoString) (ts : List Tick) :
    (∀ r ∈ (collectAll p (New hostname) ts).1, ∀ s, r.1 = some s →
      ∀ e ∈ s.Networks, e.Interface ≠ ascii "lo") ∧
    mapGet (collectAll p (New hostname) ts).2.prevNetwork (ascii "lo") = none ∧
    ascii "lo" ∉ (collectAll p (New hostname) ts).2.prevNetwork.map Prod.fst := by
  obtain ⟨h1, h2⟩ := collectAll_no_lo p ts (New hostname) rfl
  refine ⟨h1, h2, ?_⟩
  intro hmem
  have := (mapGet_isSome_iff _ _).2 hmem
  have h3 : mapGet (collectAll p (New hostname) ts).2.prevNetwork (ascii "lo") = none := h2
  rw [h3] at this
  simp at this

/-- C6: `Collect` returns the error of the first failing read, in the order
first CPU read, second CPU read, memory read, network read, together with no
snapshot; when the four reads succeed it returns a snapshot and no error. So
it fails exactly when one of the reads fails, and `collectDisk` never fails. -/
theorem Collect_error_iff (p : Platform) (c : Collector) (t : Tick) :
    (∀ e, t.cpuBefore = .error e → (Collect p c t).1 = (none, some e)) ∧
    (∀ b e, t.cpuBefore = .ok b → t.cpuAfter = .error e → (Collect p c t).1 = (none, some e)) ∧
    (∀ b a e, t.cpuBefore = .ok b → t.cpuAfter = .ok a → t.mem = .error e →
      (Collect p c t).1 = (none, some e)) ∧
    (∀ b a m e, t.cpuBefore = .ok b → t.cpuAfter = .ok a → t.mem = .ok m →
      t.net = .error e → (Collect p c t).1 = (none, some e)) ∧
    (∀ b a m ns, t.cpuBefore = .ok b → t.cpuAfter = .ok a → t.mem = .ok m → t.net = .ok ns →
      ∃ s, (Collect p c t).1 = (some s, none)) ∧
    ((Collect p c t).1.2 ≠ none ↔
      ((∃ e, t.cpuBefore = .error e) ∨ (∃ e, t.cpuAfter = .error e) ∨
       (∃ e, t.mem = .error e) ∨ (∃ e, t.net = .error e))) ∧
    ((Collect p c t).1.1 = none ↔ (Collect p c t).1.2 ≠ none) ∧
    (∀ m : SystemMetrics, (collectDisk m).1 = none) := by
  have k1 : ∀ e, t.cpuBefore = .error e → (Collect p c t).1 = (none, some e) := by
    intro e h; simp [Collect, collectCPU, h]
  have k2 : ∀ b e, t.cpuBefore = .ok b → t.cpuAfter = .error e →
      (Collect p c t).1 = (none, some e) := by
    intro b e h1 h2; simp [Collect, collectCPU, h1, h2]
  have k3 : ∀ b a e, t.cpuBefore = .ok b → t.cpuAfter = .ok a → t.mem = .error e →
      (Collect p c t).1 = (none, some e) := by
    intro b a e h1 h2 h3; simp [Collect, collectCPU, collectMemory, h1, h2, h3]
  have k4 : ∀ b a m e, t.cpuBefore = .ok b → t.cpuAfter = .ok a → t.mem = .ok m →
      t.net = .error e → (Collect p c t).1 = (none, some e) := by
    intro b a m e h1 h2 h3 h4
    simp [Collect, collectCPU, collectMemory, collectNetwork, h1, h2, h3, h4]
  have k5 : ∀ b a m ns, t.cpuBefore = .ok b → t.cpuAfter = .ok a → t.mem = .ok m →
      t.net = .ok ns → ∃ s, (Collect p c t).1 = (some s, none) := by
    intro b a m ns h1 h2 h3 h4
    rw [Collect_ok p c t b a m ns h1 h2 h3 h4]
    exact ⟨_, rfl⟩
  refine ⟨k1, k2, k3, k4, k5, ?_, ?_, fun _ => rfl⟩
  · cases h1 : t.cpuBefore with
    | error e => rw [k1 e h1]; simp
    | ok b =>
      cases h2 : t.cpuAfter with
      | error e => rw [k2 b e h1 h2]; simp
      | ok a =>
        cases h3 : t.mem with
        | error e => rw [k3 b a e h1 h2 h3]; simp
        | ok m =>
          cases h4 : t.net with
          | error e => rw [k4 b a m e h1 h2 h3 h4]; simp
          | ok ns =>
            obtain ⟨s, hs⟩ := k5 b a m ns h1 h2 h3 h4
            rw [hs]; simp
  · cases h1 : t.cpuBefore with
    | error e => rw [k1 e h1]; simp
    | ok b =>
      cases h2 : t.cpuAfter with
      | error e => rw [k2 b e h1 h2]; simp
      | ok a =>
        cases h3 : t.mem with
        | error e => rw [k3 b a e h1 h2 h3]; simp
        | ok m =>
          cases h4 : t.net with
          | error e => rw [k4 b a m e h1 h2 h3 h4]; simp
          | ok ns =>
            obtain ⟨s, hs⟩ := k5 b a m ns h1 h2 h3 h4
            rw [hs]; simp

/-- C8: when `Collect` returns a snapshot and the memory read was `m`, the
snapshot's Available equals its Free, both equal the free memory read, and
Total is the total read. -/
theorem memory_available_eq_free (p : Platform) (c : Collector) (t : Tick) (s : SystemMetrics)
    (m : memory.Stats) (hs : (Collect p c t).1.1 = some s) (hm : t.mem = .ok m) :
    s.Memory.Available = s.Memory.Free ∧ s.Memory.Free = m.Free ∧
    s.Memory.Available = m.Free ∧ s.Memory.Total = m.Total := by
  obtain ⟨b, a, m', ns, h1, h2, h3, h4⟩ := Collect_some_reads p c t s hs
  rw [hm] at h3
  injection h3 with h3
  subst h3
  rw [Collect_ok p c t b a m ns h1 h2 (by rw [hm]) h4] at hs
  simp only [Option.some.injEq] at hs
  subst hs
  exact ⟨rfl, rfl, rfl, rfl⟩

/-- The scenario of the specification for C8: total 16000000000 and free
4000000000 give available = 4000000000. -/
theorem memory_available_eq_free_witness :
    ∃ s, (Collect exPlatform exCollector exTick).1.1 = some s ∧
      s.Memory.Available = 4000000000 ∧ s.Memory.Total = 16000000000 ∧
      (s.Memory.Available = s.Memory.Free ∧ s.Memory.Free = 4000000000 ∧
       s.Memory.Available = 4000000000 ∧ s.Memory.Total = 16000000000) :=
  ⟨_, rfl, by decide, by decide,
    memory_available_eq_free exPlatform exCollector exTick _ exMem rfl rfl⟩

/-- C7: when the payload marshals, the request is created and the client
returns a response, `SendMetrics` returns an error exactly when the status
code is at least 400; the message then contains the decimal status code and
the bytes read from the response body; below 400 it returns no error. -/
theorem SendMetrics_status (t : HTTPTransport) (env : HTTPEnv) (metrics : SystemMetrics)
    (body : JValue) (resp : Response)
    (hm : MarshalMetricsPayload (payloadOf t metrics) = .ok body)
    (hr : env.newRequestErr (ingestURL t) = none)
    (hd : env.Do (ingestRequest t (ingestURL t) body) = .ok resp) :
    ((SendMetrics t env metrics ≠ none) ↔ 400 ≤ resp.StatusCode) ∧
    (400 ≤ resp.StatusCode → ∃ msg, SendMetrics t env metrics = some msg ∧
      formatInt resp.StatusCode <:+: msg ∧ resp.Body <:+: msg ∧
      formatInt resp.StatusCode = (Nat.toDigits 10 resp.StatusCode.toNat).map Char.toNat) ∧
    (resp.StatusCode < 400 → SendMetrics t env metrics = none) := by
  have hsend : SendMetrics t env metrics =
      if 400 ≤ resp.StatusCode then
        some (ascii "metrics endpoint returned " ++ formatInt resp.StatusCode
          ++ ascii ": " ++ resp.Body)
      else none := by
    unfold SendMetrics
    simp only [hm, hr, hd]
  refine ⟨?_, ?_, ?_⟩
  · rw [hsend]
    by_cases h : 400 ≤ resp.StatusCode
    · simp [h]
    · simp [h]
  · intro h
    rw [hsend, if_pos h]
    refine ⟨_, rfl, ?_, ?_, ?_⟩
    · exact ⟨ascii "metrics endpoint returned ", ascii ": " ++ resp.Body, by
        simp [List.append_assoc]⟩
    · exact ⟨ascii "metrics endpoint returned " ++ formatInt resp.StatusCode ++ ascii ": ", [],
        by simp [List.append_assoc]⟩
    · unfold formatInt
      have h0 : ¬ resp.StatusCode < 0 := by omega
      rw [if_neg h0, List.nil_append]
      congr 2
      omega
  · intro h
    rw [hsend, if_neg (by omega)]

/-- The example of the specification for C7: status 503 with body "overloaded"
yields an error whose message contains "503" and "overloaded". -/
theorem SendMetrics_status_witness :
    (SendMetrics exTransport exEnv exSnapshot =
        some (ascii "metrics endpoint returned 503: overloaded") ∧
      ascii "503" <:+: ascii "metrics endpoint returned 503: overloaded" ∧
      ascii "overloaded" <:+: ascii "metrics endpoint returned 503: overloaded") ∧
    ((SendMetrics exTransport exEnv exSnapshot ≠ none) ↔ (400 : Int) ≤ 503) ∧
    ((400 : Int) ≤ 503 → ∃ msg, SendMetrics exTransport exEnv exSnapshot = some msg ∧
      formatInt 503 <:+: msg ∧ ascii "overloaded" <:+: msg ∧
      formatInt 503 = (Nat.toDigits 10 (503 : Int).toNat).map Char.toNat) ∧
    ((503 : Int) < 400 → SendMetrics exTransport exEnv exSnapshot = none) :=
  ⟨⟨by decide, by decide, by decide⟩,
   SendMetrics_status exTransport exEnv exSnapshot _
     { StatusCode := 503, Body := ascii "overloaded" } rfl rfl rfl⟩

/-- C9 (as amended): a snapshot returned by `Collect` whose hostname, OS,
architecture and interface names are valid UTF-8 marshals without error, and
unmarshalling the document gives back the same snapshot: every string byte for
byte, every integer, every percentage as the same float64. (The timestamp and
the memory read are values of their Go types.) -/
theorem snapshot_round_trip (p : Platform) (c : Collector) (t : Tick) (s : SystemMetrics)
    (hs : (Collect p c t).1.1 = some s)
    (hts : -(2 ^ 63) ≤ t.now.UnixMilli ∧ t.now.UnixMilli < 2 ^ 63)
    (hmem : ∀ m, t.mem = .ok m → m.Wire)
    (hv : validUTF8 s.Hostname = true ∧ validUTF8 s.OS = true ∧
      validUTF8 s.Architecture = true ∧ ∀ n ∈ s.Networks, validUTF8 n.Interface = true) :
    ∃ j, MarshalSystemMetrics s = .ok j ∧ UnmarshalSystemMetrics j = some s := by
  obtain ⟨_, _, h3, _, h5⟩ := Collect_strings p c t s hs
  apply system_round_trip s ?_ (Collect_wire p c t s hs hts hmem)
  refine ⟨hv.1, hv.2.1, by rw [h3]; rfl, hv.2.2.1, ?_, hv.2.2.2⟩
  intro d hd
  have : (d.Device, d.MountPoint) ∈ s.Disks.map (fun d => (d.Device, d.MountPoint)) :=
    List.mem_map.2 ⟨d, hd, rfl⟩
  rw [h5] at this
  simp only [List.mem_singleton, Prod.mk.injEq] at this
  rw [this.1, this.2]
  exact ⟨by decide, by decide⟩

/-- The scenario of the specification round-trips. -/
theorem snapshot_round_trip_witness :
    ∃ s, (Collect exPlatform exCollector exTick).1.1 = some s ∧
      s.Networks.map (fun n => n.Interface) = [eth0] ∧
      ∃ j, MarshalSystemMetrics s = .ok j ∧ UnmarshalSystemMetrics j = some s :=
  ⟨_, rfl, by decide,
    snapshot_round_trip exPlatform exCollector exTick _ rfl (by decide)
      (by
        intro m hm
        have h : Except.ok exMem = (Except.ok m : Except GoError memory.Stats) := hm
        injection h with h
        subst h
        unfold memory.Stats.Wire exMem
        norm_num)
      (by decide)⟩

/-- C9 fails as stated: an interface whose name is the byte FF gets an entry on
the second tick; marshalling the snapshot and unmarshalling the document gives
a snapshot whose interface name is EF BF BD (U+FFFD), not FF. -/
theorem snapshot_round_trip_counterexample :
    ∃ s j s', (Collect exPlatform (Collect exPlatform (New (ascii "host")) rawTick).2 rawTick2).1.1
        = some s ∧
      MarshalSystemMetrics s = .ok j ∧ UnmarshalSystemMetrics j = some s' ∧ s' ≠ s ∧
      s.Networks.map (fun n => n.Interface) = [[0xFF]] ∧
      s'.Networks.map (fun n => n.Interface) = [[0xEF, 0xBF, 0xBD]] :=
  ⟨_, _, _, rfl, rfl, rfl, by decide, by decide, by decide⟩

/-- C10 (as amended): in the body marshalled for a snapshot returned by
`Collect`, the "cpu" object has the members user, system and idle, never iowait
or steal (their value 0 is omitted), and nice exactly when it is not zero; the
"memory" object has total, used, free and available, never buffers, and cached,
swapTotal, swapUsed, swapFree exactly when they are not zero; "metrics" has
hostname, timestamp, os, cpu, memory and disks, never osVersion, architecture
when it is not empty and networks when there is an entry; the body has hostId,
hostname and metrics, and tags when there is one. -/
theorem wire_shape (p : Platform) (c : Collector) (t : Tick) (s : SystemMetrics)
    (tr : HTTPTransport) (hs : (Collect p c t).1.1 = some s) :
    wireKeys ["metrics", "cpu"] (MarshalMetricsPayload (payloadOf tr s)) =
      some ([ascii "user", ascii "system", ascii "idle"]
        ++ (if s.CPU.Nice.isZero = true then [] else [ascii "nice"])) ∧
    wireKeys ["metrics", "memory"] (MarshalMetricsPayload (payloadOf tr s)) =
      some ([ascii "total", ascii "used", ascii "free", ascii "available"]
        ++ (if s.Memory.Cached = 0 then [] else [ascii "cached"])
        ++ (if s.Memory.SwapTotal = 0 then [] else [ascii "swapTotal"])
        ++ (if s.Memory.SwapUsed = 0 then [] else [ascii "swapUsed"])
        ++ (if s.Memory.SwapFree = 0 then [] else [ascii "swapFree"])) ∧
    wireKeys ["metrics"] (MarshalMetricsPayload (payloadOf tr s)) =
      some ([ascii "hostname", ascii "timestamp", ascii "os"]
        ++ (if s.Architecture = [] then [] else [ascii "architecture"])
        ++ [ascii "cpu", ascii "memory", ascii "disks"]
        ++ (if s.Networks.isEmpty = true then [] else [ascii "networks"])) ∧
    wireKeys [] (MarshalMetricsPayload (payloadOf tr s)) =
      some ([ascii "hostId", ascii "hostname", ascii "metrics"]
        ++ (if tr.config.Tags.isEmpty = true then [] else [ascii "tags"])) := by
  obtain ⟨b, a, m, ns, h1, h2, h3, h4⟩ := Collect_some_reads p c t s hs
  rw [Collect_ok p c t b a m ns h1 h2 h3 h4] at hs
  simp only [Option.some.injEq] at hs
  have hcpu := MarshalCpuMetrics_finite s.CPU (by
    rw [← hs]
    exact ⟨cpuPercent_isFinite _ _ b a, cpuPercent_isFinite _ _ b a,
      cpuPercent_isFinite _ _ b a, rfl, rfl, cpuPercent_isFinite _ _ b a⟩)
  have hio : s.CPU.IOWait.isZero = true := by rw [← hs]; rfl
  have hst : s.CPU.Steal.isZero = true := by rw [← hs]; rfl
  have hov : s.OSVersion = [] := by rw [← hs]
  have hbuf : s.Memory.Buffers = 0 := by rw [← hs]
  have hdisk : (s.Disks.map MarshalDiskMetrics).isEmpty = false := by rw [← hs]; rfl
  have hnet : (s.Networks.map MarshalNetworkMetrics).isEmpty = s.Networks.isEmpty := by
    cases s.Networks <;> rfl
  rw [hio, hst] at hcpu
  simp only [if_true, List.append_nil] at hcpu
  have hbody : MarshalMetricsPayload (payloadOf tr s) = .ok (.obj
      ([(ascii "hostId", jstr tr.config.HostID), (ascii "hostname", jstr tr.config.Hostname),
        (ascii "metrics", .obj ([(ascii "hostname", jstr s.Hostname),
            (ascii "timestamp", .int s.Timestamp), (ascii "os", jstr s.OS)]
          ++ jstrOmit "osVersion" s.OSVersion ++ jstrOmit "architecture" s.Architecture
          ++ [(ascii "cpu", .obj ([(ascii "user", .float s.CPU.User),
                (ascii "system", .float s.CPU.System), (ascii "idle", .float s.CPU.Idle)]
              ++ (if s.CPU.Nice.isZero = true then [] else [(ascii "nice", .float s.CPU.Nice)]))),
              (ascii "memory", MarshalMemoryMetrics s.Memory)]
          ++ jarrOmit "disks" (s.Disks.map MarshalDiskMetrics)
          ++ jarrOmit "networks" (s.Networks.map MarshalNetworkMetrics)))]
       ++ tagsMember tr.config.Tags)) := by
    unfold MarshalMetricsPayload MarshalSystemMetrics payloadOf
    simp only [hcpu]
    rfl
  rw [hbody]
  refine ⟨?_, ?_, ?_, ?_⟩
  · simp only [wireKeys, JValue.path, JValue.member, objGet_append, objGet_tagsMember, objGet_juintOmit,
      objGet_jstrOmit, objGet_jarrOmit, objGet_cons, objGet_nil, ascii_inj, String.reduceEq,
      if_false, if_true, ite_self, Option.none_or, Option.or_none, Option.or_some, or_ite,
      Option.some_bind, Option.map_some', JValue.keys, List.map_append, List.map_cons,
      List.map_nil, keys_jfloatMembers]
  · simp only [wireKeys, JValue.path, JValue.member, objGet_append, objGet_tagsMember, objGet_juintOmit,
      objGet_jstrOmit, objGet_jarrOmit, objGet_cons, objGet_nil, ascii_inj, String.reduceEq,
      if_false, if_true, ite_self, Option.none_or, Option.or_none, Option.or_some, or_ite,
      Option.some_bind, Option.map_some', JValue.keys, List.map_append, List.map_cons,
      List.map_nil, MarshalMemoryMetrics, keys_juintOmit, hbuf, List.append_nil]
  · simp only [wireKeys, JValue.path, JValue.member, objGet_append, objGet_tagsMember, objGet_juintOmit,
      objGet_jstrOmit, objGet_jarrOmit, objGet_cons, objGet_nil, ascii_inj, String.reduceEq,
      if_false, if_true, ite_self, Option.none_or, Option.or_none, Option.or_some, or_ite,
      Option.some_bind, Option.map_some', JValue.keys, List.map_append, List.map_cons,
      List.map_nil, keys_jstrOmit, keys_jarrOmit, hov, hdisk, hnet, List.append_nil,
      Bool.false_eq_true, List.append_assoc, List.cons_append, List.nil_append]
  · simp only [wireKeys, JValue.path, Option.map_some', JValue.keys, List.map_append,
      List.map_cons, List.map_nil, keys_tagsMember]

/-- The scenario of the specification for C10: its body has the shape stated. -/
theorem wire_shape_witness :
    ∃ s, (Collect exPlatform exCollector exTick).1.1 = some s ∧
      (wireKeys ["metrics", "cpu"] (MarshalMetricsPayload (payloadOf exTransport s)) =
        some ([ascii "user", ascii "system", ascii "idle"]
          ++ (if s.CPU.Nice.isZero = true then [] else [ascii "nice"])) ∧
      wireKeys ["metrics", "memory"] (MarshalMetricsPayload (payloadOf exTransport s)) =
        some ([ascii "total", ascii "used", ascii "free", ascii "available"]
          ++ (if s.Memory.Cached = 0 then [] else [ascii "cached"])
          ++ (if s.Memory.SwapTotal = 0 then [] else [ascii "swapTotal"])
          ++ (if s.Memory.SwapUsed = 0 then [] else [ascii "swapUsed"])
          ++ (if s.Memory.SwapFree = 0 then [] else [ascii "swapFree"])) ∧
      wireKeys ["metrics"] (MarshalMetricsPayload (payloadOf exTransport s)) =
        some ([ascii "hostname", ascii "timestamp", ascii "os"]
          ++ (if s.Architecture = [] then [] else [ascii "architecture"])
          ++ [ascii "cpu", ascii "memory", ascii "disks"]
          ++ (if s.Networks.isEmpty = true then [] else [ascii "networks"])) ∧
      wireKeys [] (MarshalMetricsPayload (payloadOf exTransport s)) =
        some ([ascii "hostId", ascii "hostname", ascii "metrics"]
          ++ (if exTransport.config.Tags.isEmpty = true then [] else [ascii "tags"]))) :=
  ⟨_, rfl, wire_shape exPlatform exCollector exTick _ exTransport rfl⟩

/-- C10 fails as stated: in the body marshalled for the snapshot of the
scenario the "cpu" object has only the members user, system and idle (no
iowait, steal or nice) and the "memory" object only total, used, free and
available (no cached, buffers, swapTotal, swapUsed or swapFree). -/
theorem wire_shape_counterexample :
    ∃ s ck mk, (Collect exPlatform exCollector exTick).1.1 = some s ∧
      wireKeys ["metrics", "cpu"] (MarshalMetricsPayload (payloadOf exTransport s)) = some ck ∧
      wireKeys ["metrics", "memory"] (MarshalMetricsPayload (payloadOf exTransport s)) = some mk ∧
      ck = [ascii "user", ascii "system", ascii "idle"] ∧
      mk = [ascii "total", ascii "used", ascii "free", ascii "available"] ∧
      ascii "iowait" ∉ ck ∧ ascii "steal" ∉ ck ∧ ascii "nice" ∉ ck ∧ ascii "buffers" ∉ mk :=
  ⟨_, _, _, rfl, rfl, rfl, by decide, by decide, by decide, by decide, by decide, by decide⟩

/-- C11: when `Collect` returns an error it returns no snapshot and the
collector is exactly what it was before the call, its stored mapping
`prevNetwork` and its hostname included. So the call after it, and the call
after any run of failed calls, returns what it would have returned without
them; and where the collector is the one left by a successful `Collect`, a
non-loopback name that call's read listed once is still bound to the sample
that call stored. -/
theorem failed_Collect_keeps_state (p : Platform) (c : Collector) (t : Tick) (err : GoError)
    (h : (Collect p c t).1.2 = some err) :
    (Collect p c t).1.1 = none ∧
    (Collect p c t).2 = c ∧
    (Collect p c t).2.prevNetwork = c.prevNetwork ∧
    (Collect p c t).2.hostname = c.hostname ∧
    (∀ t2 : Tick, Collect p (Collect p c t).2 t2 = Collect p c t2) ∧
    (∀ (fails : List Tick) (t2 : Tick), (∀ r ∈ (collectAll p c fails).1, r.2 ≠ none) →
      Collect p (collectAll p c fails).2 t2 = Collect p c t2) ∧
    (∀ (c0 : Collector) (t0 : Tick) (s0 : SystemMetrics) (ns0 : List network.Stats),
      (Collect p c0 t0).1.1 = some s0 → t0.net = .ok ns0 → c = (Collect p c0 t0).2 →
      ∀ n ∈ ns0, n.Name ≠ lo → (∀ r ∈ ns0, r.Name = n.Name → r = n) →
      mapGet (Collect p c t).2.prevNetwork n.Name =
        some { rxBytes := n.RxBytes, txBytes := n.TxBytes, time := t0.netNow }) := by
  have hne : (Collect p c t).1.2 ≠ none := by rw [h]; exact Option.some_ne_none _
  obtain ⟨h1, h2⟩ := Collect_err_state p c t hne
  refine ⟨h1, h2, by rw [h2], by rw [h2], fun t2 => by rw [h2], ?_, ?_⟩
  · intro fails t2 hf
    rw [collectAll_err_state p c fails hf]
  · intro c0 t0 s0 ns0 hs0 hn0 hc n hn hl hu
    rw [h2, hc]
    obtain ⟨ns, hns, _, hst⟩ := Collect_networks p c0 t0 s0 hs0
    rw [hn0] at hns
    injection hns with hns
    subst hns
    rw [hst]
    exact stored_unique p _ _ ns0 n hn hl hu

/-- An instance of C11: a network read that fails one second after `T0` leaves
the sample taken at `T0` in place, and the scenario tick after it reports the
rates 500 and 200 over the two seconds since `T0`. -/
theorem failed_Collect_keeps_state_witness :
    (Collect exPlatform exCollector failTick).1 = (none, some (ascii "network unavailable")) ∧
    (Collect exPlatform (Collect exPlatform exCollector failTick).2 exTick).1.1.map
        (fun s => s.Networks) =
      some [{ Interface := eth0, RxBytes := 500, TxBytes := 200, RxPackets := 0,
              TxPackets := 0, RxErrors := 0, TxErrors := 0, RxDropped := 0, TxDropped := 0 }] ∧
    ((Collect exPlatform exCollector failTick).1.1 = none ∧
     (Collect exPlatform exCollector failTick).2 = exCollector ∧
     (Collect exPlatform exCollector failTick).2.prevNetwork = exCollector.prevNetwork ∧
     (Collect exPlatform exCollector failTick).2.hostname = exCollector.hostname ∧
     (∀ t2 : Tick, Collect exPlatform (Collect exPlatform exCollector failTick).2 t2 =
        Collect exPlatform exCollector t2) ∧
     (∀ (fails : List Tick) (t2 : Tick),
        (∀ r ∈ (collectAll exPlatform exCollector fails).1, r.2 ≠ none) →
        Collect exPlatform (collectAll exPlatform exCollector fails).2 t2 =
          Collect exPlatform exCollector t2) ∧
     (∀ (c0 : Collector) (t0 : Tick) (s0 : SystemMetrics) (ns0 : List network.Stats),
        (Collect exPlatform c0 t0).1.1 = some s0 → t0.net = .ok ns0 →
        exCollector = (Collect exPlatform c0 t0).2 →
        ∀ n ∈ ns0, n.Name ≠ lo → (∀ r ∈ ns0, r.Name = n.Name → r = n) →
        mapGet (Collect exPlatform exCollector failTick).2.prevNetwork n.Name =
          some { rxBytes := n.RxBytes, txBytes := n.TxBytes, time := t0.netNow })) :=
  ⟨by decide, by decide,
    failed_Collect_keeps_state exPlatform exCollector failTick (ascii "network unavailable") rfl⟩

/-- C12: a non-loopback record of the read with a stored sample and elapsed
seconds greater than 0 gets its rate entry even when a counter went down: for
rxBytes (txBytes) below the stored value the byte delta converted to `float64`
and divided by the elapsed seconds is `current + 2^64 - previous`, the `uint64`
wraparound difference, which is neither zero nor negative. In `collectCPU` a
category or total counter that went down gives the same wraparound delta. -/
theorem counter_reset_wraps (p : Platform) (c : Collector) (metrics : SystemMetrics)
    (ns : List network.Stats) (now : Time) (n : network.Stats) (prev : NetworkSample)
    (hn : n ∈ ns) (hl : n.Name ≠ lo) (hp : mapGet c.prevNetwork n.Name = some prev)
    (hlt : Float64.lt fzero (Duration.Seconds (now.Sub prev.time)) = true)
    (hr : n.RxBytes < 2 ^ 64 ∧ n.TxBytes < 2 ^ 64 ∧ prev.rxBytes < 2 ^ 64 ∧
      prev.txBytes < 2 ^ 64) :
    (collectNetwork p c metrics (.ok ns) now).1 = none ∧
    (∃ e ∈ (collectNetwork p c metrics (.ok ns) now).2.1.Networks,
      e.Interface = n.Name ∧
      (n.RxBytes < prev.rxBytes →
        e.RxBytes = Float64.toUint64 p.convImpl
          (Float64.div (Float64.ofNat (n.RxBytes + 2 ^ 64 - prev.rxBytes))
            (Duration.Seconds (now.Sub prev.time))) ∧
        sub64 n.RxBytes prev.rxBytes = n.RxBytes + 2 ^ 64 - prev.rxBytes ∧
        0 < n.RxBytes + 2 ^ 64 - prev.rxBytes ∧ n.RxBytes + 2 ^ 64 - prev.rxBytes < 2 ^ 64) ∧
      (n.TxBytes < prev.txBytes →
        e.TxBytes = Float64.toUint64 p.convImpl
          (Float64.div (Float64.ofNat (n.TxBytes + 2 ^ 64 - prev.txBytes))
            (Duration.Seconds (now.Sub prev.time))) ∧
        sub64 n.TxBytes prev.txBytes = n.TxBytes + 2 ^ 64 - prev.txBytes ∧
        0 < n.TxBytes + 2 ^ 64 - prev.txBytes ∧ n.TxBytes + 2 ^ 64 - prev.txBytes < 2 ^ 64)) ∧
    (∀ (m : SystemMetrics) (before after : cpu.Stats) (x y : Nat),
      x < 2 ^ 64 → y < 2 ^ 64 → x < y →
      (after.User = x → before.User = y →
        (collectCPU m (.ok before) (.ok after)).2.CPU.User =
          Float64.mul (Float64.div (Float64.ofNat (x + 2 ^ 64 - y))
            (Float64.ofNat (cpuTotal before after))) (Float64.ofNat 100)) ∧
      (after.System = x → before.System = y →
        (collectCPU m (.ok before) (.ok after)).2.CPU.System =
          Float64.mul (Float64.div (Float64.ofNat (x + 2 ^ 64 - y))
            (Float64.ofNat (cpuTotal before after))) (Float64.ofNat 100)) ∧
      (after.Idle = x → before.Idle = y →
        (collectCPU m (.ok before) (.ok after)).2.CPU.Idle =
          Float64.mul (Float64.div (Float64.ofNat (x + 2 ^ 64 - y))
            (Float64.ofNat (cpuTotal before after))) (Float64.ofNat 100)) ∧
      (after.Nice = x → before.Nice = y →
        (collectCPU m (.ok before) (.ok after)).2.CPU.Nice =
          Float64.mul (Float64.div (Float64.ofNat (x + 2 ^ 64 - y))
            (Float64.ofNat (cpuTotal before after))) (Float64.ofNat 100)) ∧
      (after.Total = x → before.Total = y → cpuTotal before after = x + 2 ^ 64 - y)) := by
  obtain ⟨r1, r2, r3, r4⟩ := hr
  refine ⟨rfl, ⟨_, collectNetwork_emits p c metrics ns now n prev hn hl hp hlt, rfl, ?_, ?_⟩, ?_⟩
  · intro h
    obtain ⟨e1, e2, e3⟩ := sub64_wrap _ _ r1 r3 h
    refine ⟨?_, e1, by omega, by omega⟩
    simp only [rateEntry, e1]
  · intro h
    obtain ⟨e1, e2, e3⟩ := sub64_wrap _ _ r2 r4 h
    refine ⟨?_, e1, by omega, by omega⟩
    simp only [rateEntry, e1]
  · intro m before after x y hx hy hxy
    obtain ⟨e1, e2, e3⟩ := sub64_wrap x y hx hy hxy
    refine ⟨?_, ?_, ?_, ?_, ?_⟩
    · intro ha hb; simp only [collectCPU, cpuPercent, ha, hb, e1]
    · intro ha hb; simp only [collectCPU, cpuPercent, ha, hb, e1]
    · intro ha hb; simp only [collectCPU, cpuPercent, ha, hb, e1]
    · intro ha hb; simp only [collectCPU, cpuPercent, ha, hb, e1]
    · intro ha hb
      simp only [cpuTotal, ha, hb, e1]
      rw [if_neg (by omega)]

/-- An instance of C12: with the sample rx = 1000, tx = 500 stored at `T0`, a
read of rx = 400, tx = 900 two seconds later yields an entry whose rxBytes is
`uint64(float64(400 + 2^64 - 1000) / 2) = 2^63`, and txBytes 200. -/
theorem counter_reset_wraps_witness :
    (Collect exPlatform exCollector resetTick).1.1.map (fun s => s.Networks) =
      some [{ Interface := eth0, RxBytes := 2 ^ 63, TxBytes := 200, RxPackets := 0,
              TxPackets := 0, RxErrors := 0, TxErrors := 0, RxDropped := 0, TxDropped := 0 }] ∧
    sub64 400 1000 = 2 ^ 64 - 600 ∧
    ((collectNetwork exPlatform exCollector exSnapshot
        (.ok [{ Name := eth0, RxBytes := 400, TxBytes := 900 }]) (exTime 2)).1 = none ∧
     (∃ e ∈ (collectNetwork exPlatform exCollector exSnapshot
          (.ok [{ Name := eth0, RxBytes := 400, TxBytes := 900 }]) (exTime 2)).2.1.Networks,
       e.Interface = eth0 ∧
       ((400 : Nat) < 1000 →
         e.RxBytes = Float64.toUint64 exPlatform.convImpl
           (Float64.div (Float64.ofNat (400 + 2 ^ 64 - 1000))
             (Duration.Seconds ((exTime 2).Sub (exTime 0)))) ∧
         sub64 400 1000 = 400 + 2 ^ 64 - 1000 ∧
         0 < 400 + 2 ^ 64 - 1000 ∧ 400 + 2 ^ 64 - 1000 < 2 ^ 64) ∧
       ((900 : Nat) < 500 →
         e.TxBytes = Float64.toUint64 exPlatform.convImpl
           (Float64.div (Float64.ofNat (900 + 2 ^ 64 - 500))
             (Duration.Seconds ((exTime 2).Sub (exTime 0)))) ∧
         sub64 900 500 = 900 + 2 ^ 64 - 500 ∧
         0 < 900 + 2 ^ 64 - 500 ∧ 900 + 2 ^ 64 - 500 < 2 ^ 64)) ∧
     (∀ (m : SystemMetrics) (before after : cpu.Stats) (x y : Nat),
       x < 2 ^ 64 → y < 2 ^ 64 → x < y →
       (after.User = x → before.User = y →
         (collectCPU m (.ok before) (.ok after)).2.CPU.User =
           Float64.mul (Float64.div (Float64.ofNat (x + 2 ^ 64 - y))
             (Float64.ofNat (cpuTotal before after))) (Float64.ofNat 100)) ∧
       (after.System = x → before.System = y →
         (collectCPU m (.ok before) (.ok after)).2.CPU.System =
           Float64.mul (Float64.div (Float64.ofNat (x + 2 ^ 64 - y))
             (Float64.ofNat (cpuTotal before after))) (Float64.ofNat 100)) ∧
       (after.Idle = x → before.Idle = y →
         (collectCPU m (.ok before) (.ok after)).2.CPU.Idle =
           Float64.mul (Float64.div (Float64.ofNat (x + 2 ^ 64 - y))
             (Float64.ofNat (cpuTotal before after))) (Float64.ofNat 100)) ∧
       (after.Nice = x → before.Nice = y →
         (collectCPU m (.ok before) (.ok after)).2.CPU.Nice =
           Float64.mul (Float64.div (Float64.ofNat (x + 2 ^ 64 - y))
             (Float64.ofNat (cpuTotal before after))) (Float64.ofNat 100)) ∧
       (after.Total = x → before.Total = y → cpuTotal before after = x + 2 ^ 64 - y))) :=
  ⟨by decide, by decide,
    counter_reset_wraps exPlatform exCollector exSnapshot
      [{ Name := eth0, RxBytes := 400, TxBytes := 900 }] (exTime 2)
      { Name := eth0, RxBytes := 400, TxBytes := 900 }
      { rxBytes := 1000, txBytes := 500, time := exTime 0 }
      (by decide) (by decide) (by decide) (by decide) (by decide)⟩

end SdkMetrics
